import Mathlib

/-!
Verification of the debt-account interest engine:
`packages/loot-core/src/server/accounts/interest-automation.ts` and the
debt-candidate detector whose implementation is appended to
`interest-automation.test.ts` (lines 373–795).

Numbers: balances and interest amounts are integer cents; APRs are exact
rationals.  JavaScript `Math.round` rounds half toward positive infinity,
i.e. `Math.round x = ⌊x + 1/2⌋`; we model it exactly on `ℚ` (and on `ℝ`
for the branches the source computes with fractional `Math.pow`
exponents).  Floating-point error is not modelled: all arithmetic is
exact, which matches the source's intent at the cent/2-decimal rounding
granularity the claims are stated at.
-/

/-- JavaScript `Math.round` on an exact rational: half rounds up. -/
def jsRound (q : ℚ) : ℤ := ⌊q + 1/2⌋

/-- JavaScript `Math.round` on an exact real: half rounds up.  Used for the
branches whose source computes `Math.pow` with a fractional exponent. -/
noncomputable def jsRoundR (x : ℝ) : ℤ := ⌊x + 1/2⌋

/-- `calculateInterest(balance, apr, interestScheme, _compoundingFrequency)`
from `interest-automation.ts` (lines 113–164): one month of interest in
integer cents.  The `switch` on the scheme string is modelled as the same
sequential comparison chain; unrecognized schemes fall through to the
`simple` formula, and the compounding frequency argument is ignored, as in
the source. -/
noncomputable def calculateInterest (balance : ℚ) (apr : ℚ)
    (interestScheme : String) (_compoundingFrequency : String) : ℤ :=
  let principal := |balance|
  if principal = 0 ∨ apr = 0 then 0
  else
    let rate := apr / 100
    if interestScheme = "simple" then
      jsRound (principal * rate / 12)
    else if interestScheme = "compound_monthly" then
      jsRound (principal * (rate / 12))
    else if interestScheme = "compound_daily" then
      jsRound (principal * (1 + rate / 365) ^ (30 : ℕ) - principal)
    else if interestScheme = "compound_annually" then
      jsRoundR ((principal : ℝ) * (1 + (rate : ℝ)) ^ ((1 : ℝ) / 12) - (principal : ℝ))
    else
      jsRound (principal * rate / 12)

/-- `calculateAPRFromInterest(interestCharged, principal, interestScheme)`
from `interest-automation.ts` (lines 45–102): recover an APR percentage
(rounded to 2 decimal places, hence an integer number of hundredths) from
one month's interest charge, or `none` when either input is zero.  In the
source the body sits in a `try`/`catch` returning `null`; `Math.pow` never
throws in JavaScript and its argument `1 + |I|/|P|` is ≥ 1 here, so the
catch is dead and the model is total. -/
noncomputable def calculateAPRFromInterest (interestCharged : ℚ) (principal : ℚ)
    (interestScheme : String) : Option ℚ :=
  if principal = 0 ∨ interestCharged = 0 then none
  else
    let absPrincipal := |principal|
    let absInterest := |interestCharged|
    if interestScheme = "simple" then
      some ((jsRound (absInterest / absPrincipal * 12 * 100 * 100) : ℚ) / 100)
    else if interestScheme = "compound_monthly" then
      some ((jsRound (absInterest / absPrincipal * 12 * 100 * 100) : ℚ) / 100)
    else if interestScheme = "compound_daily" then
      some ((jsRoundR ((((1 + absInterest / absPrincipal : ℚ) : ℝ) ^ ((1 : ℝ) / 30) - 1)
        * 365 * 100 * 100) : ℚ) / 100)
    else if interestScheme = "compound_annually" then
      some ((jsRound (((1 + absInterest / absPrincipal) ^ (12 : ℕ) - 1) * 100 * 100) : ℚ) / 100)
    else
      some ((jsRound (absInterest / absPrincipal * 12 * 100 * 100) : ℚ) / 100)

/-! ## Calendar model

Dates are `(year, month, day)` triples standing for the source's
`YYYY-MM-DD` strings.  `monthUtils` (`shared/months.ts`) is not among the
repository sources, so its two operations used by `getNextInterestDate`
are modelled from the spec. -/

/-- A calendar day, the model of a `YYYY-MM-DD` string. -/
structure Date where
  year : ℕ
  month : ℕ
  day : ℕ
  deriving DecidableEq, Repr, Inhabited

/-- Gregorian leap-year rule. -/
def isLeapYear (y : ℕ) : Bool := (y % 4 == 0 && y % 100 != 0) || y % 400 == 0

/-- Number of days in a (1-based) month, the model of JavaScript's
`new Date(year, month, 0).getDate()` used at line 188 of the source. -/
def daysInMonth (y m : ℕ) : ℕ :=
  if m = 1 ∨ m = 3 ∨ m = 5 ∨ m = 7 ∨ m = 8 ∨ m = 10 ∨ m = 12 then 31
  else if m = 4 ∨ m = 6 ∨ m = 9 ∨ m = 11 then 30
  else if m = 2 then (if isLeapYear y then 29 else 28)
  else 0

/-- Modelled from the spec: `monthUtils.addMonths(date, 1)` followed by
taking the month — the source file `shared/months.ts` is not in the
repository sources; §4.2 says the calculator "always advances exactly one
calendar month", and only the resulting year/month are consumed. -/
def nextCalendarMonth (y m : ℕ) : ℕ × ℕ :=
  if m = 12 then (y + 1, 1) else (y, m + 1)

/-- `getNextInterestDate(interestPostingDay, fromDate)` from
`interest-automation.ts` (lines 173–194).  `monthUtils.lastDayOfMonth`
(not in the sources) is modelled from the spec as the last calendar day of
the target month. -/
def getNextInterestDate (interestPostingDay : Option ℕ) (fromDate : Date) : Date :=
  let ym := nextCalendarMonth fromDate.year fromDate.month
  match interestPostingDay with
  | none => ⟨ym.1, ym.2, daysInMonth ym.1 ym.2⟩
  | some d => ⟨ym.1, ym.2, min d (daysInMonth ym.1 ym.2)⟩

/-! ## Ledger / rule storage model

The tables touched by the schedule manager and the interest poster, as
plain lists of rows (insertion order = SQL row order; `db.first` takes the
first matching row).  Ids are natural numbers; `uuidv4()` / id-generating
inserts are modelled by a fresh-id counter `nextUuid` carried in the
state. -/

/-- A value stored in a `rule_conditions.value` / `rule_actions.value`
column: a row id, a plain string, or the JSON-encoded
`{apr, interestScheme, compoundingFrequency}` blob. -/
inductive DBValue where
  | idv (n : ℕ)
  | strv (s : String)
  | cfg (apr : ℚ) (interestScheme : String) (compoundingFrequency : String)
  deriving DecidableEq, Repr

structure RuleRow where
  id : ℕ
  stage : Option String
  deriving DecidableEq, Repr

structure RuleConditionRow where
  rule : ℕ
  field : String
  op : String
  value : DBValue
  deriving DecidableEq, Repr

structure RuleActionRow where
  id : ℕ
  rule : ℕ
  field : String
  op : String
  value : DBValue
  deriving DecidableEq, Repr

structure ScheduleRow where
  id : ℕ
  rule : ℕ
  active : Bool
  completed : Bool
  postsTransaction : Bool
  name : String
  deriving DecidableEq, Repr

structure NextDateRow where
  scheduleId : ℕ
  localNextDate : Date
  localNextDateTs : ℕ
  baseNextDate : Date
  baseNextDateTs : ℕ
  deriving DecidableEq, Repr

structure PayeeRow where
  id : ℕ
  name : String
  deriving DecidableEq, Repr

structure TransactionRow where
  id : ℕ
  account : ℕ
  amount : ℤ
  payee : Option ℕ
  category : Option ℕ
  date : Date
  cleared : Bool
  notes : String
  tombstone : Bool
  deriving DecidableEq, Repr

structure CategoryRow where
  id : ℕ
  name : String
  tombstone : Bool
  deriving DecidableEq, Repr

structure AccountRow where
  id : ℕ
  name : String
  offbudget : Bool
  closed : Bool
  tombstone : Bool
  isDebt : Bool
  deriving DecidableEq, Repr

structure DBState where
  accounts : List AccountRow
  transactions : List TransactionRow
  payees : List PayeeRow
  categories : List CategoryRow
  rules : List RuleRow
  ruleConditions : List RuleConditionRow
  ruleActions : List RuleActionRow
  schedules : List ScheduleRow
  nextDates : List NextDateRow
  nextUuid : ℕ
  today : Date
  now : ℕ
  deriving DecidableEq, Repr

/-- The join predicate of the lookup query in `setupInterestSchedule`
(lines 215–223): a schedule row whose rule is non-staged and carries a
condition `field = 'acct' AND value = accountId`.  Note that no
`debt_interest_config` action is required by the lookup. -/
def governsAccount (rules : List RuleRow) (conds : List RuleConditionRow)
    (accountId : ℕ) (s : ScheduleRow) : Bool :=
  rules.any fun r =>
    r.id == s.rule && r.stage == none &&
      conds.any fun rc =>
        rc.rule == r.id && rc.field == "acct" && rc.value == DBValue.idv accountId

/-- `db.first` on the schedule lookup query: first matching schedule row. -/
def findExistingSchedule (st : DBState) (accountId : ℕ) : Option ScheduleRow :=
  st.schedules.find? (governsAccount st.rules st.ruleConditions accountId)

/-- Number of schedule rows governing the account in a state. -/
def countGoverning (st : DBState) (accountId : ℕ) : ℕ :=
  (st.schedules.filter (governsAccount st.rules st.ruleConditions accountId)).length

/-- Parameter record of `setupInterestSchedule` (`InterestScheduleParams`). -/
structure InterestScheduleParams where
  accountId : ℕ
  apr : ℚ
  interestScheme : String
  compoundingFrequency : String
  interestPostingDay : Option ℕ
  interestCategoryId : ℕ
  deriving DecidableEq, Repr

/-- The duplicated "find or create the singleton `Interest Charge` payee"
block (lines 244–256 and 452–464): returns the payee id and the possibly
extended state. -/
def getOrCreateInterestPayee (st : DBState) : ℕ × DBState :=
  match st.payees.find? (fun pe => pe.name == "Interest Charge") with
  | some pe => (pe.id, st)
  | none =>
      (st.nextUuid,
       { st with payees := st.payees ++ [⟨st.nextUuid, "Interest Charge"⟩],
                 nextUuid := st.nextUuid + 1 })

/-- One `SELECT id FROM rule_actions WHERE rule = ? AND field = ?` followed
by an `UPDATE ... WHERE id = ?` of the value column, skipped silently when
no row is found (the two identical blocks at lines 342–356 and 359–369). -/
def updateActionValue (l : List RuleActionRow) (ruleId : ℕ) (fieldName : String)
    (v : DBValue) : List RuleActionRow :=
  match l.find? (fun a => a.rule == ruleId && a.field == fieldName) with
  | some ca => l.map fun a => if a.id = ca.id then { a with value := v } else a
  | none => l

/-- `updateInterestSchedule` (lines 329–388): rewrite the
`debt_interest_config` action value and then the `category` action value of
the schedule's rule (each skipped silently when the action row is absent;
the second lookup runs against the already-updated table, as in the
source), then rewrite the next-date fields of the schedule's
`schedules_next_date` rows.  No row is inserted or deleted. -/
def updateInterestSchedule (st : DBState) (scheduleId ruleId : ℕ)
    (p : InterestScheduleParams) : DBState :=
  let ra1 := updateActionValue st.ruleActions ruleId "debt_interest_config"
    (DBValue.cfg p.apr p.interestScheme p.compoundingFrequency)
  let ra2 := updateActionValue ra1 ruleId "category" (DBValue.idv p.interestCategoryId)
  let nextDate := getNextInterestDate p.interestPostingDay st.today
  { st with
    ruleActions := ra2,
    nextDates := st.nextDates.map fun (nd : NextDateRow) =>
      if nd.scheduleId = scheduleId then
        { nd with localNextDate := nextDate, localNextDateTs := st.now,
                  baseNextDate := nextDate, baseNextDateTs := st.now }
      else nd }

/-- `setupInterestSchedule` (lines 206–324): find-or-create.  When no
schedule governs the account, a rule (stage `NULL`) with one `acct`
condition and three actions (`payee`, `category`, `debt_interest_config`),
a schedule row, and a next-date row are inserted; `uuidv4()` /
id-generating inserts draw consecutive fresh ids from `nextUuid`. -/
def setupInterestSchedule (st : DBState) (p : InterestScheduleParams) : ℕ × DBState :=
  match findExistingSchedule st p.accountId with
  | some s => (s.id, updateInterestSchedule st s.id s.rule p)
  | none =>
      let scheduleId := st.nextUuid
      let ruleId := st.nextUuid + 1
      let st0 := { st with nextUuid := st.nextUuid + 2 }
      let pr := getOrCreateInterestPayee st0
      let interestPayeeId := pr.1
      let st1 := pr.2
      let nextDate := getNextInterestDate p.interestPostingDay st.today
      let st2 :=
        { st1 with
          rules := st1.rules ++ [⟨ruleId, none⟩],
          ruleConditions := st1.ruleConditions ++
            [⟨ruleId, "acct", "is", DBValue.idv p.accountId⟩],
          ruleActions := st1.ruleActions ++
            [⟨st1.nextUuid, ruleId, "payee", "set", DBValue.idv interestPayeeId⟩,
             ⟨st1.nextUuid + 1, ruleId, "category", "set", DBValue.idv p.interestCategoryId⟩,
             ⟨st1.nextUuid + 2, ruleId, "debt_interest_config", "set",
               DBValue.cfg p.apr p.interestScheme p.compoundingFrequency⟩],
          schedules := st1.schedules ++
            [⟨scheduleId, ruleId, true, false, true,
              "Interest for Account " ++ toString p.accountId⟩],
          nextDates := st1.nextDates ++
            [⟨scheduleId, nextDate, st.now, nextDate, st.now⟩],
          nextUuid := st1.nextUuid + 3 }
      (scheduleId, st2)

/-- `SELECT sum(amount) FROM transactions WHERE acct = ? AND tombstone = 0`
with the `?? 0` fallback (lines 432–437). -/
def accountBalance (st : DBState) (accountId : ℕ) : ℤ :=
  ((st.transactions.filter fun t => t.account == accountId && !t.tombstone).map
    TransactionRow.amount).sum

/-- `postInterestTransaction` (lines 421–478).  The thrown error is
modelled as the `Except.error` case; the state component of the result is
the ledger after the call, which on the error path is the unchanged input
state (the throw happens before any write). -/
noncomputable def postInterestTransaction (st : DBState) (accountId : ℕ) (apr : ℚ)
    (interestScheme compoundingFrequency : String) (interestCategoryId : ℕ)
    (date : Option Date) : Except String ℕ × DBState :=
  let balance := accountBalance st accountId
  let interestAmount :=
    calculateInterest (balance : ℚ) apr interestScheme compoundingFrequency
  if interestAmount = 0 then
    (Except.error "No interest to post (balance is zero or APR is zero)", st)
  else
    let pr := getOrCreateInterestPayee st
    let txId := pr.2.nextUuid
    (Except.ok txId,
     { pr.2 with
       transactions := pr.2.transactions ++
         [⟨txId, accountId, -interestAmount, some pr.1, some interestCategoryId,
           date.getD st.today, true,
           "Interest charge (" ++ toString apr ++ "% APR, " ++ interestScheme ++ ")",
           false⟩],
       nextUuid := pr.2.nextUuid + 1 })

/-! ## Debt candidate detection

`detectDebtAccounts` and its helpers are embedded from the second file
appended to `interest-automation.test.ts` (lines 373–795).  SQL queries
become list filters over the same ledger state; `ORDER BY date DESC` is a
stable descending sort on the day number (row order breaks SQL's
unspecified tie order deterministically); `LIKE '%k%'` on lowered text is
a case-insensitive substring test.  The human-readable reason strings are
kept, with their `formatCurrency`/number interpolations abstracted away. -/

/-- Lower-cased form of a string, the model of SQL `LOWER` / JS
`toLowerCase`. -/
def lowerStr (s : String) : String := ⟨s.data.map Char.toLower⟩

/-- Case-insensitive substring test, the model of `LIKE '%needle%'` on
lowered columns and of `nameLower.includes(keyword)`. -/
def strContainsSub (hay needle : String) : Bool :=
  let h := (lowerStr hay).data
  let n := (lowerStr needle).data
  (List.range (h.length + 1)).any fun i => n.isPrefixOf (h.drop i)

def containsAny (s : String) (keys : List String) : Bool :=
  keys.any fun k => strContainsSub s k

/-- The `debtKeywords` array matched against account names (test.ts
lines 445–461). -/
def debtKeywords : List String :=
  ["credit card", "visa", "mastercard", "discover", "amex",
   "american express", "loan", "mortgage", "student", "auto",
   "car payment", "debt", "line of credit", "loc", "heloc"]

/-- The `interestKeywords` array of `detectInterestTransactions`
(test.ts lines 621–627). -/
def interestKeywords : List String :=
  ["interest", "finance charge", "apr", "interest charge",
   "monthly interest"]

/-- The `debtCategoryKeywords` array of `checkDebtCategories` (test.ts
lines 690–696). -/
def debtCategoryKeywords : List String :=
  ["debt", "loan", "mortgage", "credit card", "interest"]

/-- Days-since-era number of a calendar day (proleptic Gregorian); the
difference of two of these is the source's `daysBetween` on `YYYY-MM-DD`
strings. -/
def leapCountBefore (y : ℕ) : ℕ := (y + 3) / 4 - (y + 99) / 100 + (y + 399) / 400

def cumDaysBeforeMonth (y m : ℕ) : ℕ :=
  ((List.range (m - 1)).map fun i => daysInMonth y (i + 1)).sum

def dayNumber (d : Date) : ℕ :=
  365 * d.year + leapCountBefore d.year + cumDaysBeforeMonth d.year d.month + d.day

/-- Stable insertion of `c` into a list kept in descending `key` order:
`c` lands after every element of at-least-equal key, so equal-key elements
keep their insertion order. -/
def descInsertK {α : Type} (key : α → ℕ) (c : α) : List α → List α
  | [] => [c]
  | x :: xs => if key c ≤ key x then x :: descInsertK key c xs else c :: x :: xs

/-- Stable descending sort by a numeric key: the model of `ORDER BY date
DESC` and of JavaScript's (stable) `Array.prototype.sort` with the
`b.score - a.score` comparator. -/
def sortByKeyDesc {α : Type} (key : α → ℕ) (l : List α) : List α :=
  l.foldl (fun acc c => descInsertK key c acc) []

/-- The account's non-tombstoned transactions, most recent first. -/
def accountTxns (st : DBState) (accountId : ℕ) : List TransactionRow :=
  sortByKeyDesc (fun t => dayNumber t.date)
    (st.transactions.filter fun t => t.account == accountId && !t.tombstone)

/-- `LEFT JOIN payees p ON t.payee = p.id`: the payee name, or `""` when
the reference is null or dangling (a SQL `NULL` never matches a `LIKE`). -/
def payeeNameOf (st : DBState) (p : Option ℕ) : String :=
  match p with
  | none => ""
  | some i => (((st.payees.find? fun pe => pe.id == i).map PayeeRow.name).getD "")

inductive PaymentFreq where
  | monthly
  | biweekly
  | irregular
  deriving DecidableEq, Repr

/-- The `PaymentPattern` record (test.ts lines 390–396). -/
structure PaymentPattern where
  accountId : ℕ
  averagePayment : ℚ
  paymentFrequency : PaymentFreq
  consistency : ℝ
  paymentCount : ℕ

/-- `analyzePaymentPatterns` (test.ts lines 559–610): the 12 most recent
positive-amount transactions; fewer than 2 payments short-circuits to an
irregular zero pattern; otherwise the average day gap classifies the
frequency (< 18 biweekly, < 35 monthly, else irregular) and consistency is
`1 - min(stdDev/avgAmount, 1)` over the payment amounts (0 when the
average is not positive). -/
noncomputable def analyzePaymentPatterns (st : DBState) (accountId : ℕ) :
    PaymentPattern :=
  let payments := ((accountTxns st accountId).filter fun t => 0 < t.amount).take 12
  if payments.length < 2 then
    ⟨accountId, 0, PaymentFreq.irregular, 0, payments.length⟩
  else
    let gaps : List ℕ :=
      List.zipWith (fun a b => dayNumber a.date - dayNumber b.date)
        payments payments.tail
    let avgGap : ℚ := ((gaps.map fun g => (g : ℚ)).sum) / gaps.length
    let frequency :=
      if avgGap < 18 then PaymentFreq.biweekly
      else if avgGap < 35 then PaymentFreq.monthly
      else PaymentFreq.irregular
    let amounts : List ℚ := payments.map fun t => (t.amount : ℚ)
    let avgAmount := amounts.sum / amounts.length
    let variance : ℚ := (amounts.map fun a => (a - avgAmount) ^ 2).sum / amounts.length
    let stdDev : ℝ := Real.sqrt (variance : ℝ)
    let consistency : ℝ :=
      if 0 < avgAmount then 1 - min (stdDev / (avgAmount : ℝ)) 1 else 0
    ⟨accountId, avgAmount, frequency, consistency, payments.length⟩

/-- The payment-pattern score block of `detectDebtAccounts` (test.ts
lines 484–499): needs ≥ 3 payments; monthly with consistency > 0.8 → +20,
monthly with consistency > 0.6 → +10. -/
noncomputable def patternScore (pat : PaymentPattern) : ℕ :=
  if 3 ≤ pat.paymentCount then
    if pat.paymentFrequency = PaymentFreq.monthly then
      if (4 / 5 : ℝ) < pat.consistency then 20
      else if (3 / 5 : ℝ) < pat.consistency then 10
      else 0
    else 0
  else 0

/-- The keyword disjunction of `detectInterestTransactions`' SQL: payee
name or note matches an interest keyword, case-insensitively. -/
def matchesInterestKeywords (st : DBState) (t : TransactionRow) : Bool :=
  containsAny (payeeNameOf st t.payee) interestKeywords ||
    containsAny t.notes interestKeywords

/-- The rows of `detectInterestTransactions`' query (test.ts lines
629–647): all negative non-tombstoned keyword-matching transactions of the
account, most recent first, then `LIMIT 12` — the 12 most recent
*matching* rows. -/
def interestTransactionsOf (st : DBState) (accountId : ℕ) : List TransactionRow :=
  ((accountTxns st accountId).filter
    (fun t => t.amount < 0 && matchesInterestKeywords st t)).take 12

/-- Result record of `detectInterestTransactions`. -/
structure InterestInfo where
  hasInterest : Bool
  count : ℕ
  estimatedAPR : Option ℚ
  deriving DecidableEq, Repr

/-- `detectInterestTransactions` (test.ts lines 615–684): the APR estimate
is attempted only with ≥ 3 matching transactions, converts cents to
dollars, annualizes the average monthly interest over the balance, keeps
only values in [0.1, 50] and rounds them to 2 decimals. -/
def detectInterestTransactions (st : DBState) (accountId : ℕ) : InterestInfo :=
  let its := interestTransactionsOf st accountId
  if its.length = 0 then ⟨false, 0, none⟩
  else
    let estimatedAPR : Option ℚ :=
      if 3 ≤ its.length then
        let avgMonthlyInterest : ℚ :=
          |((its.map fun t => (t.amount : ℚ)).sum / its.length)| / 100
        let balance : ℚ := |((accountBalance st accountId : ℤ) : ℚ) / 100|
        if 0 < balance ∧ 0 < avgMonthlyInterest then
          let monthlyRate := avgMonthlyInterest / balance
          let est := monthlyRate * 12 * 100
          if 1/10 ≤ est ∧ est ≤ 50 then some ((jsRound (est * 100) : ℚ) / 100)
          else none
        else none
      else none
    ⟨true, its.length, estimatedAPR⟩

/-- `checkDebtCategories` (test.ts lines 689–711): does any non-tombstoned
transaction of the account join to a non-tombstoned category whose name
matches a debt keyword. -/
def checkDebtCategories (st : DBState) (accountId : ℕ) : Bool :=
  (st.transactions.filter fun t => t.account == accountId && !t.tombstone).any
    fun t =>
      match t.category with
      | some cid =>
          st.categories.any fun c =>
            c.id == cid && !c.tombstone && containsAny c.name debtCategoryKeywords
      | none => false

/-- `suggestDebtType` (test.ts lines 716–772), with the debt types as
their stored strings.  The payment pattern (computed from ≥ 2 payments)
feeds the mortgage branch. -/
def suggestDebtType (accountName : String) (balance : ℤ)
    (pattern : PaymentPattern) : String :=
  if containsAny accountName
      ["credit card", "visa", "mastercard", "discover", "amex",
       "american express"] then "credit_card"
  else if containsAny accountName ["mortgage", "home loan"] ||
      (balance < -10000000 && pattern.paymentFrequency == PaymentFreq.monthly) then
    "mortgage"
  else if containsAny accountName ["auto", "car", "vehicle"] then "auto_loan"
  else if containsAny accountName ["student", "education", "tuition"] then
    "student_loan"
  else if containsAny accountName ["line of credit", "loc", "heloc"] then
    "line_of_credit"
  else "personal_loan"

/-- The `DebtCandidate` record (test.ts lines 378–388). -/
structure DebtCandidate where
  accountId : ℕ
  accountName : String
  balance : ℤ
  currentlyOffBudget : Bool
  confidence : String
  score : ℕ
  reasons : List String
  suggestedDebtType : String
  detectedAPR : Option ℚ
  deriving DecidableEq, Repr, Inhabited

/-- The per-account body of `detectDebtAccounts`' loop (test.ts lines
430–541): score accumulation, reasons, confidence tier and suggested type
for an account whose balance has already been computed. -/
noncomputable def scoreAccount (st : DBState) (acc : AccountRow) (bal : ℤ) :
    DebtCandidate :=
  let hasDebtKeyword := containsAny acc.name debtKeywords
  let balancePts : ℕ := if bal < -100000 then 30 else if bal < -10000 then 15 else 0
  let namePts : ℕ := if hasDebtKeyword then 25 else 0
  let offbPts : ℕ := if acc.offbudget then 10 + (if hasDebtKeyword then 15 else 0) else 0
  let pattern := analyzePaymentPatterns st acc.id
  let patPts := patternScore pattern
  let info := detectInterestTransactions st acc.id
  let intPts : ℕ := if info.hasInterest then 25 else 0
  let hasDebtCategory := checkDebtCategories st acc.id
  let catPts : ℕ := if hasDebtCategory then 15 else 0
  let score := balancePts + namePts + offbPts + patPts + intPts + catPts
  let confidence := if 70 ≤ score then "high" else if 50 ≤ score then "medium" else "low"
  { accountId := acc.id
    accountName := acc.name
    balance := bal
    currentlyOffBudget := acc.offbudget
    confidence := confidence
    score := score
    reasons :=
      (if bal < -100000 then ["Significant negative balance"]
       else if bal < -10000 then ["Negative balance"] else []) ++
      (if hasDebtKeyword then
        ["Account name suggests debt: \"" ++ acc.name ++ "\""] else []) ++
      (if acc.offbudget then
        ["Currently off-budget"] ++
          (if hasDebtKeyword then ["Off-budget account with debt-related name"]
           else [])
       else []) ++
      (if 3 ≤ pattern.paymentCount then
        (if pattern.paymentFrequency = PaymentFreq.monthly then
          (if (4 / 5 : ℝ) < pattern.consistency then ["Regular monthly payments"]
           else if (3 / 5 : ℝ) < pattern.consistency then ["Semi-regular payments"]
           else [])
         else [])
       else []) ++
      (if info.hasInterest then
        ["Interest charges detected"] ++
          (if info.estimatedAPR.isSome then ["Estimated APR"] else [])
       else []) ++
      (if hasDebtCategory then
        ["Transactions categorized to debt-related categories"] else [])
    suggestedDebtType := suggestDebtType acc.name bal pattern
    detectedAPR := info.estimatedAPR }

/-- The candidate list before the final sort, in account encounter order:
the `WHERE is_debt = 0 AND closed = 0 AND tombstone = 0` account query,
the hard balance-≥-0 skip, and the ≥ 40 inclusion floor. -/
noncomputable def debtCandidatesUnsorted (st : DBState) : List DebtCandidate :=
  st.accounts.filterMap fun acc =>
    if acc.isDebt || acc.closed || acc.tombstone then none
    else
      let bal := accountBalance st acc.id
      if 0 ≤ bal then none
      else
        let c := scoreAccount st acc bal
        if 40 ≤ c.score then some c else none

/-- `detectDebtAccounts` (test.ts lines 415–546): candidates sorted with
the `(a, b) => b.score - a.score` comparator — descending score, ties
keeping encounter order since `Array.prototype.sort` is stable; read-only. -/
noncomputable def detectDebtAccounts (st : DBState) : List DebtCandidate :=
  sortByKeyDesc (fun c => c.score) (debtCandidatesUnsorted st)

/-! ## Helper lemmas about JavaScript rounding -/

lemma jsRound_nonneg {q : ℚ} (h : 0 ≤ q) : 0 ≤ jsRound q := by
  unfold jsRound
  exact Int.le_floor.mpr (by push_cast; linarith)

lemma jsRoundR_nonneg {x : ℝ} (h : 0 ≤ x) : 0 ≤ jsRoundR x := by
  unfold jsRoundR
  exact Int.le_floor.mpr (by push_cast; linarith)

lemma jsRound_le (q : ℚ) : (jsRound q : ℚ) ≤ q + 1/2 := by
  unfold jsRound
  exact_mod_cast Int.floor_le (q + 1/2)

lemma lt_jsRound (q : ℚ) : q - 1/2 < (jsRound q : ℚ) := by
  have := Int.lt_floor_add_one (q + 1/2)
  unfold jsRound
  push_cast at this ⊢
  linarith

lemma one_le_jsRound {q : ℚ} (h : 1/2 ≤ q) : 1 ≤ jsRound q := by
  unfold jsRound
  exact Int.le_floor.mpr (by push_cast; linarith)

lemma jsRoundR_le (x : ℝ) : (jsRoundR x : ℝ) ≤ x + 1/2 := by
  unfold jsRoundR
  exact_mod_cast Int.floor_le (x + 1/2)

lemma lt_jsRoundR (x : ℝ) : x - 1/2 < (jsRoundR x : ℝ) := by
  have := Int.lt_floor_add_one (x + 1/2)
  unfold jsRoundR
  push_cast at this ⊢
  linarith

lemma one_le_jsRoundR {x : ℝ} (h : 1/2 ≤ x) : 1 ≤ jsRoundR x := by
  unfold jsRoundR
  exact Int.le_floor.mpr (by push_cast; linarith)

/-! ## Claims about the interest formula library -/

/-- C1 (amended): for every scheme and compounding frequency, every
principal > 0 and APR ≥ 0, `calculateInterest (-P) apr scheme freq` is
nonnegative, and it is 0 whenever APR = 0 (or the principal is 0).  The
converse direction of the claimed "iff" fails because the result is
rounded to whole cents — see the counterexample theorem. -/
theorem calculateInterest_nonneg (scheme freq : String) (P apr : ℚ)
    (hP : 0 < P) (hapr : 0 ≤ apr) :
    0 ≤ calculateInterest (-P) apr scheme freq ∧
      (apr = 0 → calculateInterest (-P) apr scheme freq = 0) := by
  have habs : |(-P)| = P := by rw [abs_neg, abs_of_pos hP]
  constructor
  · unfold calculateInterest
    simp only [habs]
    split_ifs with h0 h1 h2 h3 h4
    · exact le_refl 0
    · exact jsRound_nonneg (by positivity)
    · exact jsRound_nonneg (by positivity)
    · refine jsRound_nonneg ?_
      have hone : (1 : ℚ) ≤ (1 + apr / 100 / 365) ^ (30 : ℕ) := by
        calc (1 : ℚ) = 1 ^ (30 : ℕ) := by norm_num
        _ ≤ (1 + apr / 100 / 365) ^ (30 : ℕ) :=
            pow_le_pow_left₀ (by norm_num) (by linarith) 30
      nlinarith
    · refine jsRoundR_nonneg ?_
      have hb : (1 : ℝ) ≤ 1 + ((apr / 100 : ℚ) : ℝ) := by
        have : (0 : ℝ) ≤ ((apr / 100 : ℚ) : ℝ) :=
          Rat.cast_nonneg.mpr (by positivity)
        linarith
      have hone : (1 : ℝ) ≤ (1 + ((apr / 100 : ℚ) : ℝ)) ^ ((1 : ℝ) / 12) := by
        calc (1 : ℝ) = (1 + ((apr / 100 : ℚ) : ℝ)) ^ (0 : ℝ) := by
              rw [Real.rpow_zero]
        _ ≤ (1 + ((apr / 100 : ℚ) : ℝ)) ^ ((1 : ℝ) / 12) :=
              Real.rpow_le_rpow_of_exponent_le hb (by norm_num)
      have hPr : (0 : ℝ) ≤ (P : ℝ) := by positivity
      nlinarith
    · exact jsRound_nonneg (by positivity)
  · intro h
    unfold calculateInterest
    simp [h]

/-- C1 counterexample: the claimed "returns 0 iff APR = 0 or principal = 0"
fails: a 1-cent principal at 1% APR has positive principal and APR yet the
rounded one-month interest is 0. -/
theorem calculateInterest_zero_despite_pos :
    0 < (1 : ℚ) ∧ (0 : ℚ) ≤ 1 ∧
      calculateInterest (-1) 1 "simple" "monthly" = 0 ∧
      ¬((1 : ℚ) = 0 ∨ (1 : ℚ) = 0) := by
  refine ⟨by norm_num, by norm_num, ?_, by norm_num⟩
  norm_num [calculateInterest, jsRound]

theorem calculateInterest_nonneg_witness :
    0 ≤ calculateInterest (-100) 18 "simple" "monthly" ∧
      ((18 : ℚ) = 0 → calculateInterest (-100) 18 "simple" "monthly" = 0) :=
  calculateInterest_nonneg "simple" "monthly" 100 18 (by norm_num) (by norm_num)

/-- C8: the two concrete interest values from the spec's test table. -/
theorem calculateInterest_concrete_values (freq freq' : String) :
    calculateInterest (-250000) (37/2) "simple" freq = 3854 ∧
      calculateInterest (-250000) 18 "compound_monthly" freq' = 3750 := by
  constructor <;> norm_num [calculateInterest, jsRound]

/-- C9: for every balance, APR and compounding frequency the `simple` and
`compound_monthly` branches return the same value — both compute
`round(|balance| * (APR/100) / 12)` in cents, the two branches merely
associating the division differently. -/
theorem calculateInterest_simple_eq_compound_monthly
    (balance apr : ℚ) (freq freq' : String) :
    calculateInterest balance apr "simple" freq
        = jsRound (|balance| * (apr / 100) / 12) ∧
      calculateInterest balance apr "compound_monthly" freq'
        = jsRound (|balance| * (apr / 100) / 12) ∧
      calculateInterest balance apr "simple" freq
        = calculateInterest balance apr "compound_monthly" freq' := by
  have hz : |balance| = 0 ∨ apr = 0 → jsRound (|balance| * (apr / 100) / 12) = 0 := by
    rintro (h | h) <;> rw [h] <;> norm_num [jsRound]
  have h1 : calculateInterest balance apr "simple" freq
      = jsRound (|balance| * (apr / 100) / 12) := by
    unfold calculateInterest
    norm_num only
    by_cases h0 : |balance| = 0 ∨ apr = 0
    · rw [if_pos h0, (hz h0)]
    · rw [if_neg h0]; simp [mul_div_assoc]
  have h2 : calculateInterest balance apr "compound_monthly" freq'
      = jsRound (|balance| * (apr / 100) / 12) := by
    unfold calculateInterest
    norm_num only
    by_cases h0 : |balance| = 0 ∨ apr = 0
    · rw [if_pos h0, (hz h0)]
    · rw [if_neg h0]; simp [mul_div_assoc]
  exact ⟨h1, h2, h1.trans h2.symm⟩

/-- C7: `calculateAPRFromInterest` returns `none` exactly when an input is
zero; it is invariant under the signs of its inputs (absolute values are
used), and every returned percentage is an integer number of hundredths
(rounded to 2 decimal places).  The source's `try`/`catch` never fires:
the power base `1 + |I|/|P|` is at least 1. -/
theorem calculateAPRFromInterest_none_iff (I P : ℚ) (s : String) :
    (calculateAPRFromInterest I P s = none ↔ P = 0 ∨ I = 0) ∧
      calculateAPRFromInterest I P s = calculateAPRFromInterest (-I) (-P) s ∧
      (∀ v, calculateAPRFromInterest I P s = some v → ∃ k : ℤ, v = (k : ℚ) / 100) := by
  refine ⟨?_, ?_, ?_⟩
  · unfold calculateAPRFromInterest
    split_ifs with h0 <;> simp [h0]
  · unfold calculateAPRFromInterest
    simp only [neg_eq_zero, abs_neg]
  · intro v hv
    unfold calculateAPRFromInterest at hv
    split_ifs at hv <;> simp only [Option.some.injEq] at hv <;> exact ⟨_, hv.symm⟩

theorem calculateAPRFromInterest_none_iff_witness :
    calculateAPRFromInterest 0 5 "simple" = none ∧
      ∃ k : ℤ, (18 : ℚ) = (k : ℚ) / 100 :=
  ⟨(calculateAPRFromInterest_none_iff 0 5 "simple").1.mpr (Or.inr rfl),
   (calculateAPRFromInterest_none_iff 3750 250000 "compound_monthly").2.2 18
     (by norm_num [calculateAPRFromInterest, jsRound])⟩

/-! ## Claim about the posting date calculator -/

/-- C4: `getNextInterestDate` always lands in the calendar month exactly
one after `fromDate`'s month; a null posting day yields the last day of
that target month, a given posting day is clamped to the days the target
month actually has (never rolling into a different month); and the three
concrete examples from the spec, including the leap-year February 29
cases. -/
theorem getNextInterestDate_spec (pd : Option ℕ) (d : Date) :
    ((d.month = 12 → (getNextInterestDate pd d).year = d.year + 1 ∧
        (getNextInterestDate pd d).month = 1) ∧
      (d.month < 12 → (getNextInterestDate pd d).year = d.year ∧
        (getNextInterestDate pd d).month = d.month + 1)) ∧
      (pd = none → (getNextInterestDate pd d).day
        = daysInMonth (getNextInterestDate pd d).year (getNextInterestDate pd d).month) ∧
      (∀ p, pd = some p → (getNextInterestDate pd d).day
        = min p (daysInMonth (getNextInterestDate pd d).year (getNextInterestDate pd d).month)) ∧
      (getNextInterestDate pd d).day
        ≤ daysInMonth (getNextInterestDate pd d).year (getNextInterestDate pd d).month ∧
      getNextInterestDate (some 15) ⟨2024, 1, 15⟩ = ⟨2024, 2, 15⟩ ∧
      getNextInterestDate none ⟨2024, 1, 15⟩ = ⟨2024, 2, 29⟩ ∧
      getNextInterestDate (some 31) ⟨2024, 1, 31⟩ = ⟨2024, 2, 29⟩ := by
  refine ⟨⟨?_, ?_⟩, ?_, ?_, ?_, by decide, by decide, by decide⟩
  · intro h
    cases pd <;> simp [getNextInterestDate, nextCalendarMonth, h]
  · intro h
    have hne : d.month ≠ 12 := by omega
    cases pd <;> simp [getNextInterestDate, nextCalendarMonth, hne]
  · intro h
    subst h
    simp [getNextInterestDate]
  · intro p h
    subst h
    simp [getNextInterestDate]
  · cases pd <;> simp [getNextInterestDate]

theorem getNextInterestDate_spec_witness :
    (getNextInterestDate (some 15) ⟨2024, 1, 15⟩).day
      = min 15 (daysInMonth (getNextInterestDate (some 15) (⟨2024, 1, 15⟩ : Date)).year
          (getNextInterestDate (some 15) (⟨2024, 1, 15⟩ : Date)).month) :=
  (getNextInterestDate_spec (some 15) ⟨2024, 1, 15⟩).2.2.1 15 rfl

/-! ## Claim about the interest poster -/

/-- C5: `postInterestTransaction` raises the "nothing to post" error
exactly when the interest computed from the account's live balance (sum of
its non-tombstoned transaction amounts) is 0, and on that path the ledger
state is left entirely unchanged — the throw happens before any write. -/
theorem postInterestTransaction_error_iff (st : DBState) (accountId : ℕ)
    (apr : ℚ) (scheme freq : String) (categoryId : ℕ) (date : Option Date) :
    ((postInterestTransaction st accountId apr scheme freq categoryId date).1 =
        Except.error "No interest to post (balance is zero or APR is zero)" ↔
      calculateInterest ((accountBalance st accountId : ℤ) : ℚ) apr scheme freq = 0) ∧
      (calculateInterest ((accountBalance st accountId : ℤ) : ℚ) apr scheme freq = 0 →
        (postInterestTransaction st accountId apr scheme freq categoryId date).2 = st) := by
  unfold postInterestTransaction
  by_cases h : calculateInterest ((accountBalance st accountId : ℤ) : ℚ) apr scheme freq = 0
  · rw [if_pos h]
    exact ⟨⟨fun _ => h, fun _ => rfl⟩, fun _ => rfl⟩
  · rw [if_neg h]
    exact ⟨⟨fun hc => absurd hc (by simp), fun hc => absurd hc h⟩,
           fun hc => absurd hc h⟩

def emptyLedger : DBState :=
  { accounts := [], transactions := [], payees := [], categories := [],
    rules := [], ruleConditions := [], ruleActions := [], schedules := [],
    nextDates := [], nextUuid := 0, today := ⟨2024, 1, 15⟩, now := 0 }

theorem postInterestTransaction_error_iff_witness :
    (postInterestTransaction emptyLedger 1 18 "simple" "monthly" 2 none).1 =
        Except.error "No interest to post (balance is zero or APR is zero)" ∧
      (postInterestTransaction emptyLedger 1 18 "simple" "monthly" 2 none).2 =
        emptyLedger := by
  have h0 : calculateInterest ((accountBalance emptyLedger 1 : ℤ) : ℚ) 18 "simple" "monthly"
      = 0 := by
    norm_num [accountBalance, emptyLedger, calculateInterest]
  exact ⟨(postInterestTransaction_error_iff emptyLedger 1 18 "simple" "monthly" 2 none).1.mpr h0,
         (postInterestTransaction_error_iff emptyLedger 1 18 "simple" "monthly" 2 none).2 h0⟩

/-! ## Stable descending sort: lemmas -/

lemma descInsertK_cons {α : Type} (key : α → ℕ) (c x : α) (xs : List α) :
    descInsertK key c (x :: xs)
      = if key c ≤ key x then x :: descInsertK key c xs else c :: x :: xs := rfl

lemma mem_descInsertK {α : Type} (key : α → ℕ) (c y : α) (l : List α) :
    y ∈ descInsertK key c l ↔ y = c ∨ y ∈ l := by
  induction l with
  | nil => simp [descInsertK]
  | cons x xs ih =>
      rw [descInsertK_cons]
      by_cases hc : key c ≤ key x
      · rw [if_pos hc]
        simp only [List.mem_cons, ih]
        tauto
      · rw [if_neg hc]
        simp only [List.mem_cons]

lemma sorted_descInsertK {α : Type} (key : α → ℕ) (c : α) (l : List α)
    (h : List.Sorted (fun a b => key b ≤ key a) l) :
    List.Sorted (fun a b => key b ≤ key a) (descInsertK key c l) := by
  induction l with
  | nil => simp [descInsertK]
  | cons x xs ih =>
      rw [List.sorted_cons] at h
      rw [descInsertK_cons]
      by_cases hc : key c ≤ key x
      · rw [if_pos hc, List.sorted_cons]
        refine ⟨fun y hy => ?_, ih h.2⟩
        rcases (mem_descInsertK key c y xs).mp hy with rfl | hy
        · exact hc
        · exact h.1 y hy
      · rw [if_neg hc, List.sorted_cons]
        refine ⟨fun y hy => ?_, List.sorted_cons.mpr h⟩
        rcases List.mem_cons.mp hy with rfl | hy
        · omega
        · exact le_trans (h.1 y hy) (by omega)

lemma filter_descInsertK {α : Type} (key : α → ℕ) (c : α) (l : List α) (k : ℕ)
    (h : List.Sorted (fun a b => key b ≤ key a) l) :
    (descInsertK key c l).filter (fun x => key x == k)
      = l.filter (fun x => key x == k) ++ (if key c = k then [c] else []) := by
  induction l with
  | nil =>
      by_cases hk : key c = k
      · simp [descInsertK, List.filter, hk]
      · have hk' : (key c == k) = false := by simp [hk]
        simp [descInsertK, List.filter, hk', hk]
  | cons x xs ih =>
      rw [List.sorted_cons] at h
      rw [descInsertK_cons]
      by_cases hc : key c ≤ key x
      · rw [if_pos hc, List.filter_cons, List.filter_cons, ih h.2]
        by_cases hx : (key x == k) = true
        · simp [hx]
        · simp only [hx]
          simp
      · rw [if_neg hc]
        push_neg at hc
        have hxs : ∀ y ∈ x :: xs, key y < key c := by
          intro y hy
          rcases List.mem_cons.mp hy with rfl | hy
          · exact hc
          · exact lt_of_le_of_lt (h.1 y hy) hc
        by_cases hck : key c = k
        · have hnone : (x :: xs).filter (fun x => key x == k) = [] := by
            rw [List.filter_eq_nil_iff]
            intro y hy
            have := hxs y hy
            simp only [beq_iff_eq]
            omega
          rw [hnone, if_pos hck, List.filter_cons]
          have hck' : (key c == k) = true := beq_iff_eq.mpr hck
          simp [hck', hnone]
        · rw [if_neg hck, List.filter_cons]
          have hck' : (key c == k) = false := by simp [hck]
          simp [hck']

lemma perm_descInsertK {α : Type} (key : α → ℕ) (c : α) (l : List α) :
    List.Perm (descInsertK key c l) (c :: l) := by
  induction l with
  | nil => rfl
  | cons x xs ih =>
      rw [descInsertK_cons]
      by_cases hc : key c ≤ key x
      · rw [if_pos hc]
        exact (ih.cons x).trans (List.Perm.swap c x xs)
      · rw [if_neg hc]

lemma sortByKeyDesc_aux {α : Type} (key : α → ℕ) (l : List α) :
    ∀ acc : List α, List.Sorted (fun a b => key b ≤ key a) acc →
      (List.Sorted (fun a b => key b ≤ key a)
          (l.foldl (fun acc c => descInsertK key c acc) acc) ∧
        (∀ k, (l.foldl (fun acc c => descInsertK key c acc) acc).filter
            (fun x => key x == k)
          = acc.filter (fun x => key x == k) ++ l.filter (fun x => key x == k)) ∧
        List.Perm (l.foldl (fun acc c => descInsertK key c acc) acc) (acc ++ l)) := by
  induction l with
  | nil => exact fun acc hacc => ⟨hacc, fun k => by simp, by simp⟩
  | cons c l ih =>
      intro acc hacc
      rw [List.foldl_cons]
      obtain ⟨hs, hf, hp⟩ := ih (descInsertK key c acc) (sorted_descInsertK key c acc hacc)
      refine ⟨hs, fun k => ?_, ?_⟩
      · rw [hf k, filter_descInsertK key c acc k hacc, List.filter_cons]
        by_cases hc : key c = k
        · have hc' : (key c == k) = true := beq_iff_eq.mpr hc
          simp [hc, hc', List.append_assoc]
        · have hc' : (key c == k) = false := by simp [hc]
          simp [hc, hc']
      · refine hp.trans ?_
        exact ((perm_descInsertK key c acc).append_right l).trans
          List.perm_middle.symm

lemma sorted_sortByKeyDesc {α : Type} (key : α → ℕ) (l : List α) :
    List.Sorted (fun a b => key b ≤ key a) (sortByKeyDesc key l) :=
  (sortByKeyDesc_aux key l [] (by simp)).1

lemma filter_sortByKeyDesc {α : Type} (key : α → ℕ) (l : List α) (k : ℕ) :
    (sortByKeyDesc key l).filter (fun x => key x == k)
      = l.filter (fun x => key x == k) := by
  have := (sortByKeyDesc_aux key l [] (by simp)).2.1 k
  simpa [sortByKeyDesc] using this

lemma perm_sortByKeyDesc {α : Type} (key : α → ℕ) (l : List α) :
    List.Perm (sortByKeyDesc key l) l := by
  have := (sortByKeyDesc_aux key l [] (by simp)).2.2
  simpa [sortByKeyDesc] using this

/-! ## Claim about the debt candidate scorer -/

/-- C3: every candidate returned by `detectDebtAccounts` has a strictly
negative current balance and a score ≥ 40, the returned list is sorted in
descending score order, and candidates of any fixed score appear in
exactly their pre-sort (account encounter) order — JavaScript's
`Array.prototype.sort` is stable. -/
theorem detectDebtAccounts_spec (st : DBState) :
    (∀ c ∈ detectDebtAccounts st, c.balance < 0 ∧ 40 ≤ c.score) ∧
      List.Sorted (fun a b : DebtCandidate => b.score ≤ a.score)
        (detectDebtAccounts st) ∧
      ∀ k, (detectDebtAccounts st).filter (fun c => c.score == k)
        = (debtCandidatesUnsorted st).filter (fun c => c.score == k) := by
  refine ⟨?_, sorted_sortByKeyDesc _ _, fun k => filter_sortByKeyDesc _ _ k⟩
  intro c hc
  have hc' : c ∈ debtCandidatesUnsorted st :=
    ((perm_sortByKeyDesc (fun c : DebtCandidate => c.score)
      (debtCandidatesUnsorted st)).mem_iff).mp hc
  rw [debtCandidatesUnsorted, List.mem_filterMap] at hc'
  obtain ⟨a, _, ha⟩ := hc'
  by_cases h1 : a.isDebt || a.closed || a.tombstone
  · rw [if_pos h1] at ha
    exact absurd ha (by simp)
  · rw [if_neg h1] at ha
    simp only at ha
    by_cases h2 : (0 : ℤ) ≤ accountBalance st a.id
    · rw [if_pos h2] at ha
      exact absurd ha (by simp)
    · rw [if_neg h2] at ha
      by_cases h3 : 40 ≤ (scoreAccount st a (accountBalance st a.id)).score
      · rw [if_pos h3] at ha
        have hca : c = scoreAccount st a (accountBalance st a.id) :=
          (Option.some.injEq _ _ ▸ ha).symm
        subst hca
        have hbal : (scoreAccount st a (accountBalance st a.id)).balance
            = accountBalance st a.id := rfl
        exact ⟨by rw [hbal]; omega, h3⟩
      · rw [if_neg h3] at ha
        exact absurd ha (by simp)

def detectionLedger : DBState :=
  { accounts := [⟨1, "Visa Credit Card", false, false, false, false⟩],
    transactions := [⟨10, 1, -200000, none, none, ⟨2024, 1, 10⟩, true, "", false⟩],
    payees := [], categories := [], rules := [], ruleConditions := [],
    ruleActions := [], schedules := [], nextDates := [], nextUuid := 50,
    today := ⟨2024, 2, 1⟩, now := 0 }

theorem detectDebtAccounts_spec_witness :
    ((detectDebtAccounts detectionLedger).headI).balance < 0 ∧
      40 ≤ ((detectDebtAccounts detectionLedger).headI).score :=
  (detectDebtAccounts_spec detectionLedger).1
    ((detectDebtAccounts detectionLedger).headI) (by decide)

/-! ## Claims about the interest schedule manager -/

lemma governsAccount_eq_true_iff (R : List RuleRow) (C : List RuleConditionRow)
    (a : ℕ) (s : ScheduleRow) :
    governsAccount R C a s = true ↔
      ∃ r ∈ R, r.id = s.rule ∧ r.stage = none ∧
        ∃ rc ∈ C, rc.rule = r.id ∧ rc.field = "acct" ∧ rc.value = DBValue.idv a := by
  simp [governsAccount, List.any_eq_true, and_assoc]

lemma getOrCreateInterestPayee_frame (st : DBState) :
    (getOrCreateInterestPayee st).2.rules = st.rules ∧
      (getOrCreateInterestPayee st).2.ruleConditions = st.ruleConditions ∧
      (getOrCreateInterestPayee st).2.ruleActions = st.ruleActions ∧
      (getOrCreateInterestPayee st).2.schedules = st.schedules ∧
      (getOrCreateInterestPayee st).2.nextDates = st.nextDates ∧
      (getOrCreateInterestPayee st).2.transactions = st.transactions ∧
      (getOrCreateInterestPayee st).2.accounts = st.accounts ∧
      (getOrCreateInterestPayee st).2.categories = st.categories ∧
      (getOrCreateInterestPayee st).2.today = st.today ∧
      (getOrCreateInterestPayee st).2.now = st.now := by
  unfold getOrCreateInterestPayee
  cases h : st.payees.find? (fun pe => pe.name == "Interest Charge") <;> simp

lemma updateActionValue_length (l : List RuleActionRow) (ruleId : ℕ)
    (fieldName : String) (v : DBValue) :
    (updateActionValue l ruleId fieldName v).length = l.length := by
  unfold updateActionValue
  cases l.find? (fun a => a.rule == ruleId && a.field == fieldName) <;> simp

lemma updateInterestSchedule_frame (st : DBState) (sid rid : ℕ)
    (p : InterestScheduleParams) :
    (updateInterestSchedule st sid rid p).rules = st.rules ∧
      (updateInterestSchedule st sid rid p).ruleConditions = st.ruleConditions ∧
      (updateInterestSchedule st sid rid p).schedules = st.schedules ∧
      (updateInterestSchedule st sid rid p).payees = st.payees ∧
      (updateInterestSchedule st sid rid p).transactions = st.transactions ∧
      (updateInterestSchedule st sid rid p).accounts = st.accounts ∧
      (updateInterestSchedule st sid rid p).categories = st.categories ∧
      (updateInterestSchedule st sid rid p).nextUuid = st.nextUuid ∧
      (updateInterestSchedule st sid rid p).today = st.today ∧
      (updateInterestSchedule st sid rid p).now = st.now ∧
      (updateInterestSchedule st sid rid p).ruleActions.length
        = st.ruleActions.length ∧
      (updateInterestSchedule st sid rid p).nextDates.length
        = st.nextDates.length := by
  unfold updateInterestSchedule
  refine ⟨rfl, rfl, rfl, rfl, rfl, rfl, rfl, rfl, rfl, rfl, ?_, by simp⟩
  show (updateActionValue (updateActionValue _ _ _ _) _ _ _).length = _
  rw [updateActionValue_length, updateActionValue_length]

lemma findExistingSchedule_update (st : DBState) (sid rid : ℕ)
    (p : InterestScheduleParams) (a : ℕ) :
    findExistingSchedule (updateInterestSchedule st sid rid p) a
      = findExistingSchedule st a := by
  obtain ⟨h1, h2, h3, -⟩ := updateInterestSchedule_frame st sid rid p
  unfold findExistingSchedule
  rw [h1, h2, h3]

lemma countGoverning_update (st : DBState) (sid rid : ℕ)
    (p : InterestScheduleParams) (a : ℕ) :
    countGoverning (updateInterestSchedule st sid rid p) a = countGoverning st a := by
  obtain ⟨h1, h2, h3, -⟩ := updateInterestSchedule_frame st sid rid p
  unfold countGoverning
  rw [h1, h2, h3]

lemma find?_append_of_none {β : Type} {l₁ l₂ : List β} {p : β → Bool}
    (h : l₁.find? p = none) : (l₁ ++ l₂).find? p = l₂.find? p := by
  induction l₁ with
  | nil => simp
  | cons x xs ih =>
      rw [List.find?_cons] at h
      cases hpx : p x
      · rw [List.cons_append, List.find?_cons, hpx]
        rw [hpx] at h
        exact ih h
      · rw [hpx] at h
        exact absurd h (by simp)

/-- In the create path, the returned schedule id, and the shape of the
created state. -/
lemma setupInterestSchedule_create (st : DBState) (p : InterestScheduleParams)
    (h : findExistingSchedule st p.accountId = none) :
    (setupInterestSchedule st p).1 = st.nextUuid ∧
      (setupInterestSchedule st p).2.rules
        = (getOrCreateInterestPayee { st with nextUuid := st.nextUuid + 2 }).2.rules
          ++ [⟨st.nextUuid + 1, none⟩] ∧
      (setupInterestSchedule st p).2.ruleConditions
        = (getOrCreateInterestPayee { st with nextUuid := st.nextUuid + 2 }).2.ruleConditions
          ++ [⟨st.nextUuid + 1, "acct", "is", DBValue.idv p.accountId⟩] ∧
      (setupInterestSchedule st p).2.schedules
        = (getOrCreateInterestPayee { st with nextUuid := st.nextUuid + 2 }).2.schedules
          ++ [⟨st.nextUuid, st.nextUuid + 1, true, false, true,
                "Interest for Account " ++ toString p.accountId⟩] := by
  unfold setupInterestSchedule
  rw [h]
  exact ⟨rfl, rfl, rfl, rfl⟩

lemma governsAccount_extend_false {R : List RuleRow} {C : List RuleConditionRow}
    {a n : ℕ} {s : ScheduleRow} (hs : s.rule < n)
    (hold : ¬governsAccount R C a s = true) (v : DBValue) :
    ¬governsAccount (R ++ [⟨n + 1, none⟩]) (C ++ [⟨n + 1, "acct", "is", v⟩]) a s
      = true := by
  intro hnew
  rw [governsAccount_eq_true_iff] at hnew
  obtain ⟨r, hr, hid, hst, rc, hrc, hrcr, hrcf, hrcv⟩ := hnew
  rcases List.mem_append.mp hr with hr | hr
  · rcases List.mem_append.mp hrc with hrc | hrc
    · exact hold ((governsAccount_eq_true_iff R C a s).mpr
        ⟨r, hr, hid, hst, rc, hrc, hrcr, hrcf, hrcv⟩)
    · have hrc' : rc = ⟨n + 1, "acct", "is", v⟩ := by simpa using hrc
      rw [hrc'] at hrcr
      simp at hrcr
      omega
  · have hr' : r = ⟨n + 1, none⟩ := by simpa using hr
    rw [hr'] at hid
    simp at hid
    omega

lemma governsAccount_new_true {R : List RuleRow} {C : List RuleConditionRow}
    {a n : ℕ} {s : ScheduleRow} (hs : s.rule = n + 1) :
    governsAccount (R ++ [⟨n + 1, none⟩]) (C ++ [⟨n + 1, "acct", "is", DBValue.idv a⟩])
      a s = true := by
  rw [governsAccount_eq_true_iff]
  refine ⟨⟨n + 1, none⟩, by simp, by simp [hs], rfl,
    ⟨n + 1, "acct", "is", DBValue.idv a⟩, by simp, rfl, rfl, rfl⟩

/-- After a create-path call, the fresh schedule is the unique (and first)
schedule row governing the account. -/
lemma setupInterestSchedule_create_governs (st : DBState) (p : InterestScheduleParams)
    (h : findExistingSchedule st p.accountId = none)
    (hwf : ∀ s ∈ st.schedules, s.rule < st.nextUuid) :
    (∃ s₁, findExistingSchedule (setupInterestSchedule st p).2 p.accountId = some s₁ ∧
        s₁.id = (setupInterestSchedule st p).1) ∧
      countGoverning (setupInterestSchedule st p).2 p.accountId = 1 := by
  obtain ⟨hid1, hrules, hconds, hscheds⟩ := setupInterestSchedule_create st p h
  have hpr := getOrCreateInterestPayee_frame { st with nextUuid := st.nextUuid + 2 }
  have hrules' : (setupInterestSchedule st p).2.rules
      = st.rules ++ [⟨st.nextUuid + 1, none⟩] := by rw [hrules, hpr.1]
  have hconds' : (setupInterestSchedule st p).2.ruleConditions
      = st.ruleConditions ++ [⟨st.nextUuid + 1, "acct", "is", DBValue.idv p.accountId⟩] := by
    rw [hconds, hpr.2.1]
  have hscheds' : (setupInterestSchedule st p).2.schedules
      = st.schedules ++ [⟨st.nextUuid, st.nextUuid + 1, true, false, true,
          "Interest for Account " ++ toString p.accountId⟩] := by
    rw [hscheds, hpr.2.2.2.1]
  have holdnone : ∀ s ∈ st.schedules,
      ¬governsAccount (setupInterestSchedule st p).2.rules
        (setupInterestSchedule st p).2.ruleConditions p.accountId s = true := by
    intro s hs
    rw [hrules', hconds']
    exact governsAccount_extend_false (hwf s hs)
      (by
        have := List.find?_eq_none.mp h s hs
        simpa using this)
      (DBValue.idv p.accountId)
  have hnew : governsAccount (setupInterestSchedule st p).2.rules
      (setupInterestSchedule st p).2.ruleConditions p.accountId
      ⟨st.nextUuid, st.nextUuid + 1, true, false, true,
        "Interest for Account " ++ toString p.accountId⟩ = true := by
    rw [hrules', hconds']
    exact governsAccount_new_true rfl
  constructor
  · refine ⟨⟨st.nextUuid, st.nextUuid + 1, true, false, true,
      "Interest for Account " ++ toString p.accountId⟩, ?_, by rw [hid1]⟩
    unfold findExistingSchedule
    rw [hscheds']
    rw [find?_append_of_none (List.find?_eq_none.mpr holdnone)]
    simp [List.find?, hnew]
  · unfold countGoverning
    rw [hscheds', List.filter_append]
    rw [List.filter_eq_nil_iff.mpr (fun s hs => by simp [holdnone s hs])]
    simp [hnew]

lemma setupInterestSchedule_found (st : DBState) (p : InterestScheduleParams)
    (s0 : ScheduleRow) (h : findExistingSchedule st p.accountId = some s0) :
    (setupInterestSchedule st p).1 = s0.id ∧
      (setupInterestSchedule st p).2
        = updateInterestSchedule st s0.id s0.rule p := by
  unfold setupInterestSchedule
  rw [h]
  exact ⟨rfl, rfl⟩

lemma countGoverning_pos_of_found (st : DBState) (a : ℕ) (s0 : ScheduleRow)
    (h : findExistingSchedule st a = some s0) : 0 < countGoverning st a := by
  unfold countGoverning
  have hmem : s0 ∈ st.schedules := List.mem_of_find?_eq_some h
  have hpred : governsAccount st.rules st.ruleConditions a s0 = true :=
    List.find?_some h
  exact List.length_pos.mpr
    (List.ne_nil_of_mem (List.mem_filter.mpr ⟨hmem, hpred⟩))

/-- C6 (amended): in a well-formed state (every schedule's rule id is below
the fresh-id counter, as uuid generation guarantees) in which at most one
non-staged schedule row governs the account, two successive
`setupInterestSchedule` calls for that account leave exactly one schedule
row governing it, the second call returns the same schedule id as the
first, and the second call creates no schedule, rule, condition, payee,
action or next-date row. -/
theorem setupInterestSchedule_twice (st : DBState) (p₁ p₂ : InterestScheduleParams)
    (haccs : p₂.accountId = p₁.accountId)
    (hwf : ∀ s ∈ st.schedules, s.rule < st.nextUuid)
    (hcnt : countGoverning st p₁.accountId ≤ 1) :
    countGoverning (setupInterestSchedule (setupInterestSchedule st p₁).2 p₂).2
        p₁.accountId = 1 ∧
      (setupInterestSchedule (setupInterestSchedule st p₁).2 p₂).1
        = (setupInterestSchedule st p₁).1 ∧
      (setupInterestSchedule (setupInterestSchedule st p₁).2 p₂).2.schedules
        = (setupInterestSchedule st p₁).2.schedules ∧
      (setupInterestSchedule (setupInterestSchedule st p₁).2 p₂).2.rules
        = (setupInterestSchedule st p₁).2.rules ∧
      (setupInterestSchedule (setupInterestSchedule st p₁).2 p₂).2.ruleConditions
        = (setupInterestSchedule st p₁).2.ruleConditions ∧
      (setupInterestSchedule (setupInterestSchedule st p₁).2 p₂).2.payees
        = (setupInterestSchedule st p₁).2.payees ∧
      (setupInterestSchedule (setupInterestSchedule st p₁).2 p₂).2.ruleActions.length
        = (setupInterestSchedule st p₁).2.ruleActions.length ∧
      (setupInterestSchedule (setupInterestSchedule st p₁).2 p₂).2.nextDates.length
        = (setupInterestSchedule st p₁).2.nextDates.length := by
  have hkey : (∃ s₁, findExistingSchedule (setupInterestSchedule st p₁).2 p₁.accountId
        = some s₁ ∧ s₁.id = (setupInterestSchedule st p₁).1) ∧
      countGoverning (setupInterestSchedule st p₁).2 p₁.accountId = 1 := by
    cases h : findExistingSchedule st p₁.accountId with
    | none => exact setupInterestSchedule_create_governs st p₁ h hwf
    | some s0 =>
        obtain ⟨hid, hst⟩ := setupInterestSchedule_found st p₁ s0 h
        have hc1 : countGoverning st p₁.accountId = 1 := by
          have := countGoverning_pos_of_found st p₁.accountId s0 h
          omega
        constructor
        · exact ⟨s0, by rw [hst, findExistingSchedule_update, h], by rw [hid]⟩
        · rw [hst, countGoverning_update, hc1]
  obtain ⟨⟨s₁, hfind₁, hid₁⟩, hcount₁⟩ := hkey
  have hfind₂ : findExistingSchedule (setupInterestSchedule st p₁).2 p₂.accountId
      = some s₁ := by rw [haccs]; exact hfind₁
  obtain ⟨hid₂, hst₂⟩ :=
    setupInterestSchedule_found (setupInterestSchedule st p₁).2 p₂ s₁ hfind₂
  obtain ⟨hr, hc, hs, hp, -, -, -, -, -, -, hal, hnl⟩ :=
    updateInterestSchedule_frame (setupInterestSchedule st p₁).2 s₁.id s₁.rule p₂
  refine ⟨?_, ?_, ?_, ?_, ?_, ?_, ?_, ?_⟩
  · rw [hst₂, countGoverning_update]
    exact hcount₁
  · rw [hid₂, hid₁]
  · rw [hst₂]; exact hs
  · rw [hst₂]; exact hr
  · rw [hst₂]; exact hc
  · rw [hst₂]; exact hp
  · rw [hst₂]; exact hal
  · rw [hst₂]; exact hnl

def scheduleParamsA : InterestScheduleParams :=
  { accountId := 7, apr := 18, interestScheme := "compound_monthly",
    compoundingFrequency := "monthly", interestPostingDay := some 15,
    interestCategoryId := 3 }

def scheduleParamsB : InterestScheduleParams :=
  { accountId := 7, apr := 24, interestScheme := "simple",
    compoundingFrequency := "monthly", interestPostingDay := none,
    interestCategoryId := 4 }

theorem setupInterestSchedule_twice_witness :
    countGoverning (setupInterestSchedule
        (setupInterestSchedule emptyLedger scheduleParamsA).2 scheduleParamsB).2
      scheduleParamsA.accountId = 1 ∧
      (setupInterestSchedule (setupInterestSchedule emptyLedger scheduleParamsA).2
          scheduleParamsB).1
        = (setupInterestSchedule emptyLedger scheduleParamsA).1 :=
  ⟨(setupInterestSchedule_twice emptyLedger scheduleParamsA scheduleParamsB rfl
      (by decide) (by decide)).1,
   (setupInterestSchedule_twice emptyLedger scheduleParamsA scheduleParamsB rfl
      (by decide) (by decide)).2.1⟩

/-- C6 counterexample: in a starting state where two schedule rows already
govern account 7, two successive `setupInterestSchedule` calls leave two
governing schedule rows, not exactly one — the claim fails for arbitrary
starting ledger states. -/
def duplicatedLedger : DBState :=
  { accounts := [], transactions := [], payees := [], categories := [],
    rules := [⟨0, none⟩, ⟨1, none⟩],
    ruleConditions := [⟨0, "acct", "is", DBValue.idv 7⟩,
                       ⟨1, "acct", "is", DBValue.idv 7⟩],
    ruleActions := [],
    schedules := [⟨2, 0, true, false, true, "a"⟩, ⟨3, 1, true, false, true, "b"⟩],
    nextDates := [], nextUuid := 10, today := ⟨2024, 1, 15⟩, now := 0 }

theorem setupInterestSchedule_twice_counterexample :
    countGoverning (setupInterestSchedule
        (setupInterestSchedule duplicatedLedger scheduleParamsA).2 scheduleParamsA).2
      7 = 2 := by decide

/-! ## Frame/effect claim on the update path -/

lemma forall₂_map_self {α : Type} {R : α → α → Prop} {f : α → α} :
    ∀ {l : List α}, (∀ a ∈ l, R a (f a)) → List.Forall₂ R l (l.map f)
  | [], _ => List.Forall₂.nil
  | x :: xs, h =>
      List.Forall₂.cons (h x (by simp))
        (forall₂_map_self fun a ha => h a (by simp [ha]))

lemma forall₂_rel_trans {α : Type} {R S T : α → α → Prop}
    (h : ∀ a b c, R a b → S b c → T a c) :
    ∀ {l₁ l₂ l₃ : List α}, List.Forall₂ R l₁ l₂ → List.Forall₂ S l₂ l₃ →
      List.Forall₂ T l₁ l₃ := by
  intro l₁ l₂ l₃ h12
  induction h12 generalizing l₃ with
  | nil =>
      intro h23
      cases h23
      exact List.Forall₂.nil
  | cons hr _ ih =>
      intro h23
      cases h23 with
      | cons hs hrest => exact List.Forall₂.cons (h _ _ _ hr hs) (ih hrest)

lemma updateActionValue_ids (l : List RuleActionRow) (ruleId : ℕ)
    (fieldName : String) (v : DBValue) :
    (updateActionValue l ruleId fieldName v).map RuleActionRow.id
      = l.map RuleActionRow.id := by
  unfold updateActionValue
  cases l.find? (fun a => a.rule == ruleId && a.field == fieldName) with
  | none => rfl
  | some ca =>
      rw [List.map_map]
      refine List.map_congr_left fun a _ => ?_
      by_cases hid : a.id = ca.id <;> simp [hid]

lemma updateActionValue_rel (l : List RuleActionRow) (ruleId : ℕ)
    (fieldName : String) (v : DBValue)
    (hnd : (l.map RuleActionRow.id).Nodup) :
    List.Forall₂ (fun a a' : RuleActionRow =>
        a'.id = a.id ∧ a'.rule = a.rule ∧ a'.field = a.field ∧ a'.op = a.op ∧
          (a'.value ≠ a.value → a.field = fieldName ∧ a.rule = ruleId))
      l (updateActionValue l ruleId fieldName v) := by
  unfold updateActionValue
  cases hfind : l.find? (fun a => a.rule == ruleId && a.field == fieldName) with
  | none =>
      exact List.forall₂_same.mpr fun a _ =>
        ⟨rfl, rfl, rfl, rfl, fun hv => absurd rfl hv⟩
  | some ca =>
      have hca_mem : ca ∈ l := List.mem_of_find?_eq_some hfind
      have hca_pred := List.find?_some hfind
      rw [Bool.and_eq_true, beq_iff_eq, beq_iff_eq] at hca_pred
      refine forall₂_map_self fun a ha => ?_
      by_cases hid : a.id = ca.id
      · have haca : a = ca := List.inj_on_of_nodup_map hnd ha hca_mem hid
        rw [if_pos hid]
        exact ⟨rfl, rfl, rfl, rfl, fun _ => ⟨haca ▸ hca_pred.2, haca ▸ hca_pred.1⟩⟩
      · rw [if_neg hid]
        exact ⟨rfl, rfl, rfl, rfl, fun hv => absurd rfl hv⟩

lemma updateInterestSchedule_effects (st : DBState) (sid rid : ℕ)
    (p : InterestScheduleParams)
    (hnd : (st.ruleActions.map RuleActionRow.id).Nodup) :
    List.Forall₂ (fun a a' : RuleActionRow =>
        a'.id = a.id ∧ a'.rule = a.rule ∧ a'.field = a.field ∧ a'.op = a.op ∧
          (a'.value ≠ a.value →
            (a.field = "debt_interest_config" ∨ a.field = "category") ∧
              a.rule = rid))
      st.ruleActions (updateInterestSchedule st sid rid p).ruleActions ∧
    List.Forall₂ (fun nd nd' : NextDateRow =>
        nd'.scheduleId = nd.scheduleId ∧ (nd' ≠ nd → nd.scheduleId = sid))
      st.nextDates (updateInterestSchedule st sid rid p).nextDates := by
  constructor
  · have h1 := updateActionValue_rel st.ruleActions rid "debt_interest_config"
      (DBValue.cfg p.apr p.interestScheme p.compoundingFrequency) hnd
    have hnd1 : ((updateActionValue st.ruleActions rid "debt_interest_config"
        (DBValue.cfg p.apr p.interestScheme p.compoundingFrequency)).map
          RuleActionRow.id).Nodup := by
      rw [updateActionValue_ids]
      exact hnd
    have h2 := updateActionValue_rel
      (updateActionValue st.ruleActions rid "debt_interest_config"
        (DBValue.cfg p.apr p.interestScheme p.compoundingFrequency))
      rid "category" (DBValue.idv p.interestCategoryId) hnd1
    refine forall₂_rel_trans ?_ h1 h2
    intro a b c hab hbc
    obtain ⟨hid1, hr1, hf1, ho1, hv1⟩ := hab
    obtain ⟨hid2, hr2, hf2, ho2, hv2⟩ := hbc
    refine ⟨hid2.trans hid1, hr2.trans hr1, hf2.trans hf1, ho2.trans ho1, ?_⟩
    intro hvac
    by_cases hba : b.value = a.value
    · have hcb : c.value ≠ b.value := by rw [hba]; exact hvac
      obtain ⟨hbf, hbr⟩ := hv2 hcb
      exact ⟨Or.inr (hf1 ▸ hbf), hr1 ▸ hbr⟩
    · obtain ⟨haf, har⟩ := hv1 hba
      exact ⟨Or.inl haf, har⟩
  · refine forall₂_map_self fun nd _ => ?_
    by_cases hs : nd.scheduleId = sid
    · rw [if_pos hs]
      exact ⟨rfl, fun _ => hs⟩
    · rw [if_neg hs]
      exact ⟨rfl, fun hne => absurd rfl hne⟩

/-- C10: whenever the stored state already holds a non-staged rule with an
`acct` condition for the account that is joined to a schedule — no
`debt_interest_config` action is required by the lookup — the call takes
the update path: it creates no rule, condition, action, schedule, payee or
next-date row, it only rewrites the values of that rule's existing
`debt_interest_config` and `category` actions (silently skipping each when
absent) and the next-date fields of that schedule's rows, and it returns
the found schedule's id.  Rule-action row ids are assumed pairwise
distinct (primary keys). -/
theorem setupInterestSchedule_update_path (st : DBState) (p : InterestScheduleParams)
    (s0 : ScheduleRow) (h : findExistingSchedule st p.accountId = some s0)
    (hnd : (st.ruleActions.map RuleActionRow.id).Nodup) :
    (setupInterestSchedule st p).1 = s0.id ∧
      (setupInterestSchedule st p).2.rules = st.rules ∧
      (setupInterestSchedule st p).2.ruleConditions = st.ruleConditions ∧
      (setupInterestSchedule st p).2.schedules = st.schedules ∧
      (setupInterestSchedule st p).2.payees = st.payees ∧
      (setupInterestSchedule st p).2.transactions = st.transactions ∧
      (setupInterestSchedule st p).2.nextUuid = st.nextUuid ∧
      List.Forall₂ (fun a a' : RuleActionRow =>
          a'.id = a.id ∧ a'.rule = a.rule ∧ a'.field = a.field ∧ a'.op = a.op ∧
            (a'.value ≠ a.value →
              (a.field = "debt_interest_config" ∨ a.field = "category") ∧
                a.rule = s0.rule))
        st.ruleActions (setupInterestSchedule st p).2.ruleActions ∧
      List.Forall₂ (fun nd nd' : NextDateRow =>
          nd'.scheduleId = nd.scheduleId ∧ (nd' ≠ nd → nd.scheduleId = s0.id))
        st.nextDates (setupInterestSchedule st p).2.nextDates := by
  obtain ⟨hid, hst⟩ := setupInterestSchedule_found st p s0 h
  obtain ⟨hr, hc, hs, hp, htr, -, -, hnu, -⟩ :=
    updateInterestSchedule_frame st s0.id s0.rule p
  obtain ⟨hact, hnext⟩ := updateInterestSchedule_effects st s0.id s0.rule p hnd
  rw [hst]
  exact ⟨hid, hr, hc, hs, hp, htr, hnu, hact, hnext⟩

def singleScheduleLedger : DBState :=
  { accounts := [], transactions := [], payees := [], categories := [],
    rules := [⟨0, none⟩],
    ruleConditions := [⟨0, "acct", "is", DBValue.idv 7⟩],
    ruleActions := [],
    schedules := [⟨1, 0, true, false, true, "existing"⟩],
    nextDates := [⟨1, ⟨2024, 2, 15⟩, 0, ⟨2024, 2, 15⟩, 0⟩],
    nextUuid := 5, today := ⟨2024, 1, 15⟩, now := 9 }

theorem setupInterestSchedule_update_path_witness :
    (setupInterestSchedule singleScheduleLedger scheduleParamsA).1 = 1 ∧
      (setupInterestSchedule singleScheduleLedger scheduleParamsA).2.rules
        = singleScheduleLedger.rules ∧
      (setupInterestSchedule singleScheduleLedger scheduleParamsA).2.schedules
        = singleScheduleLedger.schedules := by
  have h := setupInterestSchedule_update_path singleScheduleLedger scheduleParamsA
    ⟨1, 0, true, false, true, "existing"⟩ (by decide) (by decide)
  exact ⟨h.1, h.2.1, h.2.2.2.1⟩

/-! ## Round-trip of the forward and inverse formulas -/

lemma calcInterest_simple_eval (P r : ℚ) (freq : String)
    (hP : 0 < P) (hr : 0 < r) :
    calculateInterest (-P) r "simple" freq = jsRound (P * (r / 100) / 12) := by
  unfold calculateInterest
  rw [abs_neg, abs_of_pos hP, if_neg (by push_neg; constructor <;> positivity)]
  rw [if_pos rfl]

lemma calcInterest_monthly_eval (P r : ℚ) (freq : String)
    (hP : 0 < P) (hr : 0 < r) :
    calculateInterest (-P) r "compound_monthly" freq
      = jsRound (P * (r / 100 / 12)) := by
  unfold calculateInterest
  rw [abs_neg, abs_of_pos hP, if_neg (by push_neg; constructor <;> positivity)]
  rw [if_neg (by decide), if_pos rfl]

lemma calcInterest_daily_eval (P r : ℚ) (freq : String)
    (hP : 0 < P) (hr : 0 < r) :
    calculateInterest (-P) r "compound_daily" freq
      = jsRound (P * (1 + r / 100 / 365) ^ (30 : ℕ) - P) := by
  unfold calculateInterest
  rw [abs_neg, abs_of_pos hP, if_neg (by push_neg; constructor <;> positivity)]
  rw [if_neg (by decide), if_neg (by decide), if_pos rfl]

lemma calcInterest_annually_eval (P r : ℚ) (freq : String)
    (hP : 0 < P) (hr : 0 < r) :
    calculateInterest (-P) r "compound_annually" freq
      = jsRoundR ((P : ℝ) * (1 + ((r / 100 : ℚ) : ℝ)) ^ ((1 : ℝ) / 12) - (P : ℝ)) := by
  unfold calculateInterest
  rw [abs_neg, abs_of_pos hP, if_neg (by push_neg; constructor <;> positivity)]
  rw [if_neg (by decide), if_neg (by decide), if_neg (by decide), if_pos rfl]

lemma aprInv_simple_eval (I P : ℚ) (hI : 0 < I) (hP : 0 < P) :
    calculateAPRFromInterest I P "simple"
      = some ((jsRound (I / P * 12 * 100 * 100) : ℚ) / 100) := by
  unfold calculateAPRFromInterest
  rw [if_neg (by push_neg; constructor <;> positivity)]
  rw [if_pos rfl, abs_of_pos hI, abs_of_pos hP]

lemma aprInv_monthly_eval (I P : ℚ) (hI : 0 < I) (hP : 0 < P) :
    calculateAPRFromInterest I P "compound_monthly"
      = some ((jsRound (I / P * 12 * 100 * 100) : ℚ) / 100) := by
  unfold calculateAPRFromInterest
  rw [if_neg (by push_neg; constructor <;> positivity)]
  rw [if_neg (by decide), if_pos rfl, abs_of_pos hI, abs_of_pos hP]

lemma aprInv_daily_eval (I P : ℚ) (hI : 0 < I) (hP : 0 < P) :
    calculateAPRFromInterest I P "compound_daily"
      = some ((jsRoundR ((((1 + I / P : ℚ) : ℝ) ^ ((1 : ℝ) / 30) - 1)
          * 365 * 100 * 100) : ℚ) / 100) := by
  unfold calculateAPRFromInterest
  rw [if_neg (by push_neg; constructor <;> positivity)]
  rw [if_neg (by decide), if_neg (by decide), if_pos rfl, abs_of_pos hI, abs_of_pos hP]

lemma aprInv_annually_eval (I P : ℚ) (hI : 0 < I) (hP : 0 < P) :
    calculateAPRFromInterest I P "compound_annually"
      = some ((jsRound (((1 + I / P) ^ (12 : ℕ) - 1) * 100 * 100) : ℚ) / 100) := by
  unfold calculateAPRFromInterest
  rw [if_neg (by push_neg; constructor <;> positivity)]
  rw [if_neg (by decide), if_neg (by decide), if_neg (by decide), if_pos rfl,
    abs_of_pos hI, abs_of_pos hP]

lemma roundtrip_rate_core (P r : ℚ) (I : ℤ) (hP : 10000 ≤ P)
    (hr1 : 1/10 ≤ r) (hr2 : r ≤ 50)
    (hIu : (I : ℚ) ≤ P * (r / 100) / 12 + 1/2)
    (hIl : P * (r / 100) / 12 - 1/2 < (I : ℚ)) :
    |(jsRound ((I : ℚ) / P * 12 * 100 * 100) : ℚ) / 100 - r| ≤ 1/10 := by
  have hP0 : (0 : ℚ) < P := by linarith
  set x : ℚ := (I : ℚ) / P * 12 * 100 * 100 with hxdef
  have hxP : x * P = 120000 * (I : ℚ) := by
    rw [hxdef]
    field_simp
    ring
  have hx1 : (jsRound x : ℚ) ≤ x + 1/2 := jsRound_le x
  have hx2 : x - 1/2 < (jsRound x : ℚ) := lt_jsRound x
  have h1 : (jsRound x : ℚ) * P ≤ 120000 * (I : ℚ) + P / 2 := by
    have hm := mul_le_mul_of_nonneg_right hx1 hP0.le
    nlinarith [hxP]
  have h2 : 120000 * (I : ℚ) - P / 2 < (jsRound x : ℚ) * P := by
    have hm := mul_lt_mul_of_pos_right hx2 hP0
    nlinarith [hxP]
  have hq : 1200 * (P * (r / 100) / 12) = P * r := by ring
  have h3 : 1200 * (I : ℚ) ≤ P * r + 600 := by linarith
  have h4 : P * r - 600 < 1200 * (I : ℚ) := by linarith
  have k1 : (jsRound x : ℚ) ≤ 100 * r + 10 := by
    have hkey : (jsRound x : ℚ) * P ≤ (100 * r + 10) * P := by nlinarith
    exact le_of_mul_le_mul_right hkey hP0
  have k2 : 100 * r - 10 ≤ (jsRound x : ℚ) := by
    have hkey : (100 * r - 10) * P ≤ (jsRound x : ℚ) * P := by nlinarith
    exact le_of_mul_le_mul_right hkey hP0
  rw [abs_sub_le_iff]
  constructor <;> linarith

lemma roundtrip_simple (P r : ℚ) (freq : String) (hP : 10000 ≤ P)
    (hr1 : 1/10 ≤ r) (hr2 : r ≤ 50) :
    ∃ v, calculateAPRFromInterest
        ((calculateInterest (-P) r "simple" freq : ℤ) : ℚ) P "simple" = some v ∧
      |v - r| ≤ 1/10 := by
  have hP0 : (0 : ℚ) < P := by linarith
  have hr0 : (0 : ℚ) < r := by linarith
  have hPr : 1000 ≤ P * r := by nlinarith
  rw [calcInterest_simple_eval P r freq hP0 hr0]
  have hIu := jsRound_le (P * (r / 100) / 12)
  have hIl := lt_jsRound (P * (r / 100) / 12)
  have hI1 : 1 ≤ jsRound (P * (r / 100) / 12) := one_le_jsRound (by nlinarith)
  have hI0 : (0 : ℚ) < ((jsRound (P * (r / 100) / 12) : ℤ) : ℚ) := by
    exact_mod_cast Int.lt_of_lt_of_le Int.zero_lt_one hI1
  rw [aprInv_simple_eval _ P hI0 hP0]
  exact ⟨_, rfl, roundtrip_rate_core P r _ hP hr1 hr2 hIu hIl⟩

lemma roundtrip_monthly (P r : ℚ) (freq : String) (hP : 10000 ≤ P)
    (hr1 : 1/10 ≤ r) (hr2 : r ≤ 50) :
    ∃ v, calculateAPRFromInterest
        ((calculateInterest (-P) r "compound_monthly" freq : ℤ) : ℚ) P
        "compound_monthly" = some v ∧
      |v - r| ≤ 1/10 := by
  have hP0 : (0 : ℚ) < P := by linarith
  have hr0 : (0 : ℚ) < r := by linarith
  have hPr : 1000 ≤ P * r := by nlinarith
  rw [calcInterest_monthly_eval P r freq hP0 hr0, show P * (r / 100 / 12)
    = P * (r / 100) / 12 from by ring]
  have hIu := jsRound_le (P * (r / 100) / 12)
  have hIl := lt_jsRound (P * (r / 100) / 12)
  have hI1 : 1 ≤ jsRound (P * (r / 100) / 12) := one_le_jsRound (by nlinarith)
  have hI0 : (0 : ℚ) < ((jsRound (P * (r / 100) / 12) : ℤ) : ℚ) := by
    exact_mod_cast Int.lt_of_lt_of_le Int.zero_lt_one hI1
  rw [aprInv_monthly_eval _ P hI0 hP0]
  exact ⟨_, rfl, roundtrip_rate_core P r _ hP hr1 hr2 hIu hIl⟩

lemma n_mul_sub_le_pow_sub_pow (n : ℕ) (a b : ℝ) (hb : 1 ≤ b) (hba : b ≤ a) :
    (n : ℝ) * (a - b) ≤ a ^ n - b ^ n := by
  induction n with
  | zero => simp
  | succ n ih =>
      have ha : 1 ≤ a := le_trans hb hba
      have hbn : (1 : ℝ) ≤ b ^ n := one_le_pow₀ hb
      have hd : 0 ≤ a ^ n - b ^ n := by
        nlinarith [pow_le_pow_left₀ (by linarith : (0:ℝ) ≤ b) hba n]
      have hstep : a ^ (n + 1) - b ^ (n + 1)
          = a * (a ^ n - b ^ n) + (a - b) * b ^ n := by ring
      push_cast
      nlinarith [ih]

lemma pow_succ_sub_pow_le (n : ℕ) (a b c : ℝ) (hb : 0 ≤ b) (hba : b ≤ a)
    (hac : a ≤ c) :
    a ^ (n + 1) - b ^ (n + 1) ≤ ((n + 1 : ℕ) : ℝ) * c ^ n * (a - b) := by
  induction n with
  | zero => simp
  | succ n ih =>
      have hc0 : 0 ≤ c := le_trans hb (le_trans hba hac)
      have hbc : b ≤ c := le_trans hba hac
      have hd : 0 ≤ a ^ (n+1) - b ^ (n+1) := by
        nlinarith [pow_le_pow_left₀ hb hba (n+1)]
      have hbn : b ^ (n+1) ≤ c ^ (n+1) := pow_le_pow_left₀ hb hbc (n+1)
      have hcn : 0 ≤ c ^ n := pow_nonneg hc0 n
      have hstep : a ^ (n + 2) - b ^ (n + 2)
          = a * (a ^ (n+1) - b ^ (n+1)) + (a - b) * b ^ (n+1) := by ring
      push_cast
      push_cast at ih
      have h1 : a * (a ^ (n+1) - b ^ (n+1)) ≤ c * (a ^ (n+1) - b ^ (n+1)) :=
        mul_le_mul_of_nonneg_right hac hd
      have h2 : c * (a ^ (n+1) - b ^ (n+1))
          ≤ c * (((n : ℝ) + 1) * c ^ n * (a - b)) :=
        mul_le_mul_of_nonneg_left ih hc0
      have h3 : (a - b) * b ^ (n+1) ≤ (a - b) * c ^ (n+1) :=
        mul_le_mul_of_nonneg_left hbn (by linarith)
      have hring : c * (((n : ℝ) + 1) * c ^ n * (a - b)) + (a - b) * c ^ (n+1)
          = ((n : ℝ) + 1 + 1) * c ^ (n+1) * (a - b) := by ring
      linarith

lemma rpow_inv_pow (y : ℝ) (hy : 0 ≤ y) (n : ℕ) (hn : n ≠ 0) :
    (y ^ ((1 : ℝ) / n)) ^ (n : ℕ) = y := by
  rw [← Real.rpow_natCast (y ^ ((1 : ℝ) / n)) n, ← Real.rpow_mul hy]
  rw [show (1 : ℝ) / n * n = 1 from by field_simp]
  exact Real.rpow_one y

lemma one_le_rpow_inv (y : ℝ) (hy : 1 ≤ y) (n : ℕ) (hn : n ≠ 0) :
    1 ≤ y ^ ((1 : ℝ) / n) := by
  by_contra hlt
  push_neg at hlt
  have h0 : 0 ≤ y ^ ((1 : ℝ) / n) := Real.rpow_nonneg (by linarith) _
  have := pow_lt_one₀ h0 hlt hn
  rw [rpow_inv_pow y (by linarith) n hn] at this
  linarith

set_option maxHeartbeats 1000000 in
lemma roundtrip_daily (P r : ℚ) (freq : String) (hP : 10000 ≤ P)
    (hr1 : 1/10 ≤ r) (hr2 : r ≤ 50) :
    ∃ v, calculateAPRFromInterest
        ((calculateInterest (-P) r "compound_daily" freq : ℤ) : ℚ) P
        "compound_daily" = some v ∧ |v - r| ≤ 1/10 := by
  have hP0 : (0 : ℚ) < P := by linarith
  have hr0 : (0 : ℚ) < r := by linarith
  have hPr : 1000 ≤ P * r := by nlinarith
  rw [calcInterest_daily_eval P r freq hP0 hr0]
  set q : ℚ := P * (1 + r / 100 / 365) ^ (30 : ℕ) - P with hqdef
  have hA : 1 + 30 * (r / 36500) ≤ (1 + r / 100 / 365) ^ (30 : ℕ) := by
    have hbern := one_add_mul_le_pow (a := r / 100 / 365) (by nlinarith) 30
    have hcast : ((30 : ℕ) : ℚ) * (r / 100 / 365) = 30 * (r / 36500) := by
      push_cast
      ring
    linarith
  have hq12 : 1/2 ≤ q := by
    have hmul := mul_le_mul_of_nonneg_left hA hP0.le
    rw [hqdef]
    nlinarith
  have hIu := jsRound_le q
  have hIl := lt_jsRound q
  have hI1 : 1 ≤ jsRound q := one_le_jsRound hq12
  have hI0 : (0 : ℚ) < ((jsRound q : ℤ) : ℚ) := by
    exact_mod_cast Int.lt_of_lt_of_le Int.zero_lt_one hI1
  rw [aprInv_daily_eval _ P hI0 hP0]
  refine ⟨_, rfl, ?_⟩
  set I : ℤ := jsRound q with hIdef
  set y : ℝ := ((1 + (I : ℚ) / P : ℚ) : ℝ) with hydef
  set u : ℝ := y ^ ((1 : ℝ) / 30) with hudef
  set B : ℝ := ((1 + r / 100 / 365 : ℚ) : ℝ) with hBdef
  have hP0R : (0 : ℝ) < (P : ℝ) := by exact_mod_cast hP0
  have hPR : (10000 : ℝ) ≤ (P : ℝ) := by exact_mod_cast hP
  have hyval : y = 1 + (I : ℝ) / (P : ℝ) := by rw [hydef]; push_cast; ring
  have hy1 : 1 ≤ y := by
    rw [hyval]
    have h1 : (0 : ℝ) ≤ (I : ℝ) := by exact_mod_cast (by omega : (0:ℤ) ≤ I)
    have := div_nonneg h1 hP0R.le
    linarith
  have hu30 : u ^ (30 : ℕ) = y := by
    rw [hudef]
    exact rpow_inv_pow y (by linarith) 30 (by norm_num)
  have hu1 : 1 ≤ u := by
    rw [hudef]
    exact one_le_rpow_inv y hy1 30 (by norm_num)
  have hB1 : 1 ≤ B := by
    rw [hBdef]
    push_cast
    have : (0:ℝ) ≤ (r:ℝ) := by exact_mod_cast hr0.le
    nlinarith
  set Acast : ℝ := (((1 + r / 100 / 365) ^ (30 : ℕ) : ℚ) : ℝ) with hAdef
  have hB30 : B ^ (30 : ℕ) = Acast := by
    rw [hBdef, hAdef]
    push_cast
    ring
  have hdiff : |y - Acast| ≤ 1 / (2 * (P : ℝ)) := by
    have hIuR : (I : ℝ) ≤ (q : ℝ) + 1/2 := by
      have h := (Rat.cast_le (K := ℝ)).mpr hIu
      push_cast at h
      exact h
    have hIlR : (q : ℝ) - 1/2 < (I : ℝ) := by
      have h := (Rat.cast_lt (K := ℝ)).mpr hIl
      push_cast at h
      exact h
    have hqR : (q : ℝ) = (P : ℝ) * Acast - (P : ℝ) := by
      rw [hAdef, hqdef]
      push_cast
      ring
    have key : y - Acast = ((I : ℝ) - (q : ℝ)) / (P : ℝ) := by
      rw [hyval, hqR]
      field_simp
      ring
    rw [key, abs_div, abs_of_pos hP0R,
      show 1 / (2 * (P : ℝ)) = (1/2) / (P : ℝ) from by ring,
      div_le_div_iff_of_pos_right hP0R]
    exact abs_le.mpr ⟨by linarith, by linarith⟩
  have habs_pow : (30:ℝ) * |u - B| ≤ |u ^ (30 : ℕ) - B ^ (30 : ℕ)| := by
    rcases le_total B u with h | h
    · have h1 : B ^ (30 : ℕ) ≤ u ^ (30 : ℕ) := pow_le_pow_left₀ (by linarith) h 30
      rw [abs_of_nonneg (by linarith), abs_of_nonneg (by linarith)]
      have := n_mul_sub_le_pow_sub_pow 30 u B hB1 h
      push_cast at this
      linarith
    · have h1 : u ^ (30 : ℕ) ≤ B ^ (30 : ℕ) := pow_le_pow_left₀ (by linarith) h 30
      rw [abs_of_nonpos (by linarith), abs_of_nonpos (by linarith)]
      have := n_mul_sub_le_pow_sub_pow 30 B u hu1 h
      push_cast at this
      linarith
  have hub : |u - B| ≤ 1 / (60 * (P:ℝ)) := by
    rw [hu30, hB30] at habs_pow
    have heq : 1 / (60 * (P:ℝ)) = (1 / (2 * (P:ℝ))) / 30 := by ring
    linarith
  have hZ1 := jsRoundR_le ((u - 1) * 365 * 100 * 100)
  have hZ2 := lt_jsRoundR ((u - 1) * 365 * 100 * 100)
  have hBr : (B - 1) * 365 * 100 * 100 = 100 * (r:ℝ) := by
    rw [hBdef]
    push_cast
    ring
  have hPinv : 3650000 / (60 * (P:ℝ)) ≤ 61/10 := by
    rw [div_le_iff₀ (by positivity)]
    nlinarith
  have hcenter : |(u - 1) * 365 * 100 * 100 - 100 * (r:ℝ)| ≤ 61/10 := by
    rw [← hBr,
      show (u - 1) * 365 * 100 * 100 - (B - 1) * 365 * 100 * 100
        = (u - B) * 3650000 from by ring,
      abs_mul, abs_of_pos (by norm_num : (0:ℝ) < 3650000)]
    calc |u - B| * 3650000 ≤ (1 / (60 * (P:ℝ))) * 3650000 := by
          nlinarith [abs_nonneg (u - B)]
    _ = 3650000 / (60 * (P:ℝ)) := by ring
    _ ≤ 61/10 := hPinv
  have hreal : |((jsRoundR ((u - 1) * 365 * 100 * 100) : ℤ) : ℝ) / 100 - (r:ℝ)|
      ≤ 1/10 := by
    rw [abs_sub_le_iff] at hcenter ⊢
    constructor
    · nlinarith [hcenter.1]
    · nlinarith [hcenter.2]
  rw [← Rat.cast_le (K := ℝ)]
  push_cast
  exact hreal

set_option maxHeartbeats 1000000 in
lemma roundtrip_annually (P r : ℚ) (freq : String) (hP : 10000 ≤ P)
    (hr1 : 1/10 ≤ r) (hr2 : r ≤ 50) :
    ∃ v, calculateAPRFromInterest
        ((calculateInterest (-P) r "compound_annually" freq : ℤ) : ℚ) P
        "compound_annually" = some v ∧ |v - r| ≤ 1/10 := by
  have hP0 : (0 : ℚ) < P := by linarith
  have hr0 : (0 : ℚ) < r := by linarith
  have hPr : 1000 ≤ P * r := by nlinarith
  rw [calcInterest_annually_eval P r freq hP0 hr0]
  set rh : ℝ := ((r / 100 : ℚ) : ℝ) with hrhdef
  set v0 : ℝ := (1 + rh) ^ ((1 : ℝ) / 12) with hv0def
  have hP0R : (0 : ℝ) < (P : ℝ) := by exact_mod_cast hP0
  have hPR : (10000 : ℝ) ≤ (P : ℝ) := by exact_mod_cast hP
  have hrR : (r : ℝ) = 100 * rh := by rw [hrhdef]; push_cast; ring
  have hrh0 : 0 ≤ rh := by rw [hrhdef]; positivity
  have hrh1 : 1/1000 ≤ rh := by
    rw [hrhdef]
    push_cast
    have hrcast := (Rat.cast_le (K := ℝ)).mpr hr1
    push_cast at hrcast
    linarith
  have hrh2 : rh ≤ 1/2 := by
    rw [hrhdef]
    push_cast
    have hrcast := (Rat.cast_le (K := ℝ)).mpr hr2
    push_cast at hrcast
    linarith
  have hPrR : (1000 : ℝ) ≤ (P : ℝ) * (r : ℝ) := by exact_mod_cast hPr
  have hv12 : v0 ^ (12 : ℕ) = 1 + rh := by
    rw [hv0def]
    exact rpow_inv_pow (1 + rh) (by linarith) 12 (by norm_num)
  have hv0ge : 1 ≤ v0 := by
    rw [hv0def]
    exact one_le_rpow_inv (1 + rh) (by linarith) 12 (by norm_num)
  have hv0le : v0 ≤ 207/200 := by
    by_contra hgt
    push_neg at hgt
    have hlt : (207/200 : ℝ) ^ (12 : ℕ) < v0 ^ (12 : ℕ) :=
      pow_lt_pow_left₀ hgt (by norm_num) (by norm_num)
    rw [hv12] at hlt
    have hnum : (3/2 : ℝ) ≤ (207/200 : ℝ) ^ (12 : ℕ) := by norm_num
    linarith
  set t : ℝ := rh / (12 * (1 + rh)) with htdef
  have ht0 : 0 ≤ t := by rw [htdef]; positivity
  have ht1 : t ≤ 1/24 := by
    rw [htdef, div_le_iff₀ (by positivity)]
    nlinarith
  have hbern : 1 - 12 * t ≤ (1 - t) ^ (12 : ℕ) := by
    have h := one_add_mul_le_pow (a := -t) (by linarith) 12
    have hc : 1 + ((12 : ℕ) : ℝ) * (-t) = 1 - 12 * t := by push_cast; ring
    calc 1 - 12 * t = 1 + ((12 : ℕ) : ℝ) * (-t) := hc.symm
    _ ≤ (1 + (-t)) ^ (12 : ℕ) := h
    _ = (1 - t) ^ (12 : ℕ) := by ring_nf
  have h112 : 1 - 12 * t = 1 / (1 + rh) := by
    rw [htdef]
    field_simp
    left
    ring
  have hprod : (1 + t) ^ (12 : ℕ) * (1 - t) ^ (12 : ℕ) = (1 - t ^ 2) ^ (12 : ℕ) := by
    rw [← mul_pow]
    ring_nf
  have hle1 : (1 - t ^ 2) ^ (12 : ℕ) ≤ 1 := by
    apply pow_le_one₀ <;> nlinarith
  have h1t12 : (1 + t) ^ (12 : ℕ) ≤ 1 + rh := by
    have hm : (1 + t) ^ (12 : ℕ) * (1 - 12 * t)
        ≤ (1 + t) ^ (12 : ℕ) * (1 - t) ^ (12 : ℕ) :=
      mul_le_mul_of_nonneg_left hbern (by positivity)
    have hfin : (1 + t) ^ (12 : ℕ) * (1 / (1 + rh)) ≤ 1 := by
      rw [← h112]
      calc (1 + t) ^ (12 : ℕ) * (1 - 12 * t)
          ≤ (1 + t) ^ (12 : ℕ) * (1 - t) ^ (12 : ℕ) := hm
      _ = (1 - t ^ 2) ^ (12 : ℕ) := hprod
      _ ≤ 1 := hle1
    have hmul := mul_le_mul_of_nonneg_right hfin (by linarith : (0:ℝ) ≤ 1 + rh)
    have hsimp : (1 + t) ^ (12 : ℕ) * (1 / (1 + rh)) * (1 + rh)
        = (1 + t) ^ (12 : ℕ) := by
      field_simp
    rw [hsimp, one_mul] at hmul
    exact hmul
  have hv0t : 1 + t ≤ v0 := by
    refine le_of_pow_le_pow_left (n := 12) (by norm_num) (by linarith) ?_
    rw [hv12]
    exact h1t12
  have hPrh : 10 ≤ (P : ℝ) * rh := by
    rw [hrhdef]
    push_cast
    nlinarith
  have ht_ge : rh / 18 ≤ t := by
    rw [htdef, div_le_div_iff (by norm_num) (by positivity)]
    nlinarith
  have hw12 : 1/2 ≤ (P : ℝ) * v0 - (P : ℝ) := by
    have h1 : (P : ℝ) * t ≤ (P : ℝ) * (v0 - 1) :=
      mul_le_mul_of_nonneg_left (by linarith) hP0R.le
    have h2 : (P : ℝ) * (rh / 18) ≤ (P : ℝ) * t :=
      mul_le_mul_of_nonneg_left ht_ge hP0R.le
    nlinarith
  have hIu := jsRoundR_le ((P : ℝ) * v0 - (P : ℝ))
  have hIl := lt_jsRoundR ((P : ℝ) * v0 - (P : ℝ))
  have hI1 : 1 ≤ jsRoundR ((P : ℝ) * v0 - (P : ℝ)) := one_le_jsRoundR hw12
  have hI0Q : (0 : ℚ) < ((jsRoundR ((P : ℝ) * v0 - (P : ℝ)) : ℤ) : ℚ) := by
    exact_mod_cast Int.lt_of_lt_of_le Int.zero_lt_one hI1
  rw [aprInv_annually_eval _ P hI0Q hP0]
  refine ⟨_, rfl, ?_⟩
  set I : ℤ := jsRoundR ((P : ℝ) * v0 - (P : ℝ)) with hIdef
  set yq : ℚ := 1 + (I : ℚ) / P with hyqdef
  have hyR : ((yq : ℚ) : ℝ) = 1 + (I : ℝ) / (P : ℝ) := by
    rw [hyqdef]
    push_cast
    ring
  have hy1R : 1 ≤ ((yq : ℚ) : ℝ) := by
    rw [hyR]
    have h1 : (0 : ℝ) ≤ (I : ℝ) := by exact_mod_cast (by omega : (0:ℤ) ≤ I)
    have := div_nonneg h1 hP0R.le
    linarith
  have hyv0 : |((yq : ℚ) : ℝ) - v0| ≤ 1 / (2 * (P : ℝ)) := by
    have key : ((yq : ℚ) : ℝ) - v0
        = ((I : ℝ) - ((P : ℝ) * v0 - (P : ℝ))) / (P : ℝ) := by
      rw [hyR]
      field_simp
      ring
    rw [key, abs_div, abs_of_pos hP0R,
      show 1 / (2 * (P : ℝ)) = (1/2) / (P : ℝ) from by ring,
      div_le_div_iff_of_pos_right hP0R]
    exact abs_le.mpr ⟨by linarith, by linarith⟩
  have hyle : ((yq : ℚ) : ℝ) ≤ 259/250 := by
    have h1 : ((yq : ℚ) : ℝ) ≤ v0 + 1 / (2 * (P : ℝ)) := by
      have := (abs_le.mp hyv0).2
      linarith
    have h2 : 1 / (2 * (P : ℝ)) ≤ 1/20000 := by
      rw [div_le_div_iff (by positivity) (by norm_num)]
      linarith
    linarith
  have hv0le' : v0 ≤ 259/250 := by linarith
  have hpow : |((yq : ℚ) : ℝ) ^ (12 : ℕ) - v0 ^ (12 : ℕ)|
      ≤ 12 * (259/250 : ℝ) ^ (11 : ℕ) * |((yq : ℚ) : ℝ) - v0| := by
    rcases le_total v0 ((yq : ℚ) : ℝ) with h | h
    · have h1 : v0 ^ (12 : ℕ) ≤ ((yq : ℚ) : ℝ) ^ (12 : ℕ) :=
        pow_le_pow_left₀ (by linarith) h 12
      rw [abs_of_nonneg (by linarith), abs_of_nonneg (by linarith)]
      have := pow_succ_sub_pow_le 11 ((yq : ℚ) : ℝ) v0 (259/250) (by linarith) h hyle
      push_cast at this
      linarith
    · have h1 : ((yq : ℚ) : ℝ) ^ (12 : ℕ) ≤ v0 ^ (12 : ℕ) :=
        pow_le_pow_left₀ (by linarith) h 12
      rw [abs_of_nonpos (by linarith), abs_of_nonpos (by linarith)]
      have := pow_succ_sub_pow_le 11 v0 ((yq : ℚ) : ℝ) (259/250) (by linarith) h hv0le'
      push_cast at this
      linarith
  have hcpow : (259/250 : ℝ) ^ (11 : ℕ) ≤ 19/12 := by norm_num
  have h2P : 1 / (2 * (P : ℝ)) ≤ 1/20000 := by
    rw [div_le_div_iff (by positivity) (by norm_num)]
    linarith
  have hcenterR : |((yq : ℚ) : ℝ) ^ (12 : ℕ) - (1 + rh)| ≤ 19/20000 := by
    rw [← hv12]
    have h255 : |((yq : ℚ) : ℝ) - v0| ≤ 1/20000 := le_trans hyv0 h2P
    have hc0 : (0 : ℝ) ≤ (259/250 : ℝ) ^ (11 : ℕ) := by positivity
    nlinarith [hpow, abs_nonneg (((yq : ℚ) : ℝ) - v0),
      abs_nonneg (((yq : ℚ) : ℝ) ^ (12 : ℕ) - v0 ^ (12 : ℕ))]
  have hJ1 := jsRound_le ((yq ^ (12 : ℕ) - 1) * 100 * 100)
  have hJ2 := lt_jsRound ((yq ^ (12 : ℕ) - 1) * 100 * 100)
  have hJ1R : ((jsRound ((yq ^ (12 : ℕ) - 1) * 100 * 100) : ℤ) : ℝ)
      ≤ (((yq : ℚ) : ℝ) ^ (12 : ℕ) - 1) * 100 * 100 + 1/2 := by
    have h := (Rat.cast_le (K := ℝ)).mpr hJ1
    push_cast at h
    linarith
  have hJ2R : (((yq : ℚ) : ℝ) ^ (12 : ℕ) - 1) * 100 * 100 - 1/2
      < ((jsRound ((yq ^ (12 : ℕ) - 1) * 100 * 100) : ℤ) : ℝ) := by
    have h := (Rat.cast_lt (K := ℝ)).mpr hJ2
    push_cast at h
    linarith
  have hctr : (((yq : ℚ) : ℝ) ^ (12 : ℕ) - 1) * 100 * 100 - 100 * (r : ℝ)
      = 10000 * (((yq : ℚ) : ℝ) ^ (12 : ℕ) - (1 + rh)) := by
    rw [hrR]
    ring
  have habs := abs_le.mp hcenterR
  have hreal : |((jsRound ((yq ^ (12 : ℕ) - 1) * 100 * 100) : ℤ) : ℝ) / 100 - (r : ℝ)|
      ≤ 1/10 := by
    rw [abs_sub_le_iff]
    constructor
    · nlinarith [habs.1, habs.2]
    · nlinarith [habs.1, habs.2]
  rw [← Rat.cast_le (K := ℝ)]
  push_cast
  exact hreal

/-- C2 (amended): for every principal ≥ 10000 cents, every APR in the sane
range [0.1, 50] and every recognized scheme, feeding `calculateInterest`'s
one-month charge back through `calculateAPRFromInterest` recovers the APR
to within one decimal place (|Δ| ≤ 0.1).  For small principals the
round-trip fails outright — see the counterexample theorem. -/
theorem calculateAPR_roundtrip (P r : ℚ) (freq s : String)
    (hP : 10000 ≤ P) (hr1 : 1/10 ≤ r) (hr2 : r ≤ 50)
    (hs : s = "simple" ∨ s = "compound_monthly" ∨ s = "compound_daily" ∨
      s = "compound_annually") :
    ∃ v, calculateAPRFromInterest
        ((calculateInterest (-P) r s freq : ℤ) : ℚ) P s = some v ∧
      |v - r| ≤ 1/10 := by
  rcases hs with rfl | rfl | rfl | rfl
  · exact roundtrip_simple P r freq hP hr1 hr2
  · exact roundtrip_monthly P r freq hP hr1 hr2
  · exact roundtrip_daily P r freq hP hr1 hr2
  · exact roundtrip_annually P r freq hP hr1 hr2

/-- C2 counterexample: at principal 1 cent (> 0) and the sane APR 18 the
round-trip does not approximate the APR at all — the one-month interest
rounds to 0 cents, so the inverse returns `none`. -/
theorem calculateAPR_roundtrip_fails_small_principal :
    calculateAPRFromInterest
        ((calculateInterest (-1) 18 "simple" "monthly" : ℤ) : ℚ) 1 "simple"
      = none ∧ (0 : ℚ) < 1 := by
  constructor
  · norm_num [calculateInterest, calculateAPRFromInterest, jsRound]
  · norm_num

theorem calculateAPR_roundtrip_witness :
    ∃ v, calculateAPRFromInterest
        ((calculateInterest (-250000) 18 "simple" "monthly" : ℤ) : ℚ) 250000
        "simple" = some v ∧ |v - 18| ≤ 1/10 :=
  calculateAPR_roundtrip 250000 18 "monthly" "simple" (by norm_num)
    (by norm_num) (by norm_num) (Or.inl rfl)
